import Mathlib

/-!
Shallow embedding of the JML (Joiner / Mover / Leaver) identity-lifecycle
engine: the data model (models.py), the policy resolver
(jml_engine/engine/policy_mapper.py), the identity state store
(jml_engine/engine/state_manager.py), and the three workflow variants
(workflows/joiner.py, workflows/mover.py, jml_engine/workflows/leaver.py on
top of jml_engine/workflows/base_workflow.py).

Modeling conventions:
- Python timestamps (datetime.utcnow / datetime.now(timezone.utc)) are modeled
  by a Nat clock threaded through execution; each call to "now" yields the
  current tick and advances the clock, so the clock is strictly monotone.
- Python dicts keyed by strings are association lists that keep insertion
  order and replace in place, like CPython dicts.
- Python list(set(xs)) enumerates the distinct elements of xs in an
  unspecified order; it is modeled as xs.dedup, which fixes one such order.
  All theorems about such lists are stated up to membership.
- The pydantic field validators run at model construction inside the
  (out-of-scope) ingestion layer; email strings are carried opaquely here.
- File persistence (StateManager._save_state / _load_state, AuditLogger file
  writes) has no effect on the in-memory semantics and is not modeled.
-/

namespace JML

/-- models.py LifecycleEvent: HR lifecycle events that trigger IAM workflows. -/
inductive LifecycleEvent where
  | NEW_STARTER
  | ROLE_CHANGE
  | DEPARTMENT_CHANGE
  | TERMINATION
  | CONTRACTOR_OFFBOARDING
  | LEAVE_OF_ABSENCE
  | RETURN_FROM_LEAVE
  deriving DecidableEq, Repr

/-- models.py UserStatus: current status of a user identity. -/
inductive UserStatus where
  | ACTIVE
  | INACTIVE
  | SUSPENDED
  | TERMINATED
  | ON_LEAVE
  deriving DecidableEq, Repr

/-- models.py HREvent restricted to the fields the modeled core reads
(event, employee_id, name, email, department, title, contract_type,
previous_department, previous_title).  The remaining fields (manager_email,
start/end dates, location, event_timestamp, source_system, raw_data) are
carried opaquely by the code and never branch execution, so they are omitted.
contract_type is Optional[str] with default "PERMANENT" in the source; the
None case (which would crash contract_type.upper()) is not modeled. -/
structure HREvent where
  event : LifecycleEvent
  employee_id : String
  name : String
  email : String
  department : String
  title : String
  contract_type : String := "PERMANENT"
  previous_department : Option String := none
  previous_title : Option String := none
  deriving DecidableEq, Repr

/-- models.py AccessEntitlement.  Its Python __eq__ and __hash__ compare
exactly the tuple (system, resource_type, resource_name, permission_level)
and ignore granted_at / expires_at, so those two timestamp fields are
omitted and Lean structural equality coincides with the Python one. -/
structure AccessEntitlement where
  system : String
  resource_type : String
  resource_name : String
  permission_level : Option String := none
  deriving DecidableEq, Repr

/-- The composite key compared by AccessEntitlement.__eq__ (models.py). -/
def AccessEntitlement.key (e : AccessEntitlement) :
    String × String × String × Option String :=
  (e.system, e.resource_type, e.resource_name, e.permission_level)

/-- models.py UserIdentity.  created_at / updated_at are clock ticks. -/
structure UserIdentity where
  employee_id : String
  name : String
  email : String
  department : String
  title : String
  status : UserStatus := UserStatus.ACTIVE
  entitlements : List AccessEntitlement := []
  created_at : Nat := 0
  updated_at : Nat := 0
  last_hr_event : Option HREvent := none
  deriving DecidableEq, Repr

/-- models.py AccessProfile: desired-state value with per-system lists. -/
structure AccessProfile where
  department : String
  title : Option String := none
  aws_roles : List String := []
  azure_groups : List String := []
  github_teams : List String := []
  google_groups : List String := []
  slack_channels : List String := []
  description : Option String := none
  deriving DecidableEq, Repr

/-! Python-semantics helpers. -/

/-- Python `a or b` on two strings: the empty string is falsy. -/
def pyOrStr (a b : String) : String :=
  if a = "" then b else a

/-- Python `a or b` where a is Optional[str] and b a string: None and the
empty string are falsy. -/
def pyOrOptStr (a : Option String) (b : String) : String :=
  match a with
  | some s => if s = "" then b else s
  | none => b

/-- Python `a or b` on two Optional[str] values. -/
def pyOrOpt (a b : Option String) : Option String :=
  match a with
  | some s => if s = "" then b else some s
  | none => b

/-- Python str(x) of an Optional[str]: None renders as "None". -/
def optShow (a : Option String) : String :=
  match a with
  | some s => s
  | none => "None"

/-- Whether the character list starts with the given pattern list. -/
def charsStartWith : List Char → List Char → Bool
  | _, [] => true
  | [], _ :: _ => false
  | c :: cs, p :: ps => c == p && charsStartWith cs ps

/-- Whether the pattern character list occurs contiguously in the haystack. -/
def charsContain (pat : List Char) : List Char → Bool
  | [] => charsStartWith [] pat
  | c :: cs => charsStartWith (c :: cs) pat || charsContain pat cs

/-- Models re.search(pattern, s, re.IGNORECASE) for the literal
(metacharacter-free) regex fragment used by the title mappings: the
lower-cased pattern occurs as a contiguous substring of the lower-cased
string (case folding is applied per character, as str.lower does for the
ASCII names the configuration uses). -/
def regexSearchCI (pat s : String) : Bool :=
  charsContain (pat.data.map Char.toLower) (s.data.map Char.toLower)

/-- Python `needle in s.upper()` substring test (per-character upper
casing). -/
def containsUpper (needle s : String) : Bool :=
  charsContain needle.data (s.data.map Char.toUpper)

/-- Python `s.upper() == other` for an ASCII literal, on the character
lists. -/
def upperEq (s other : String) : Bool :=
  s.data.map Char.toUpper == other.data

/-- dict lookup on an association list (CPython dict.get). -/
def lookupStr {β : Type} (k : String) : List (String × β) → Option β
  | [] => none
  | (k', v) :: rest => if k' = k then some v else lookupStr k rest

/-- dict store on an association list: replace in place if the key exists,
append otherwise (CPython dict assignment, insertion order preserved). -/
def insertAssoc {β : Type} (k : String) (v : β) :
    List (String × β) → List (String × β)
  | [] => [(k, v)]
  | (k', v') :: rest =>
      if k' = k then (k, v) :: rest else (k', v') :: insertAssoc k v rest

/-! Policy configuration (engine/policy_mapper.py).

The access-matrix YAML is a mapping whose values of interest are records of
five per-system name lists plus a description.  A record that is present in
the YAML but is a completely empty mapping is falsy in Python
(`if not dept_config: return None`, `if override_config:`) and behaves
exactly like an absent record, so presence in the association lists below
means present-and-non-empty. -/

/-- One `{aws_roles, azure_groups, github_teams, google_groups,
slack_channels, description}` record of the access-matrix YAML; a missing
list key defaults to [] via dict.get. -/
structure AccessConfig where
  aws_roles : List String := []
  azure_groups : List String := []
  github_teams : List String := []
  google_groups : List String := []
  slack_channels : List String := []
  description : Option String := none
  deriving DecidableEq, Repr

/-- The access_matrix.yaml document: default_access, departments,
contractor_access, intern_access, and the remaining top-level profile
records that access_override keys of role_mappings.yaml refer to
(self.access_matrix.get(override_key); the override keys used by the
configuration are distinct from the four reserved keys). -/
structure AccessMatrix where
  default_access : AccessConfig := {}
  departments : List (String × AccessConfig) := []
  contractor_access : AccessConfig := {}
  intern_access : AccessConfig := {}
  profiles : List (String × AccessConfig) := []
  deriving DecidableEq, Repr

/-- One entry of role_mappings.yaml title_mappings. -/
structure TitleMapping where
  pattern : String
  department : Option String := none
  department_override : Option String := none
  access_override : Option String := none
  additional_aws_roles : List String := []
  additional_azure_groups : List String := []
  additional_github_teams : List String := []
  additional_google_groups : List String := []
  additional_slack_channels : List String := []
  deriving DecidableEq, Repr

/-- One entry of role_mappings.yaml custom_mappings (exact title key). -/
structure CustomMapping where
  department : Option String := none
  additional_aws_roles : List String := []
  additional_azure_groups : List String := []
  additional_github_teams : List String := []
  additional_google_groups : List String := []
  additional_slack_channels : List String := []
  deriving DecidableEq, Repr

/-- The role_mappings.yaml document. -/
structure RoleMappings where
  title_mappings : List TitleMapping := []
  custom_mappings : List (String × CustomMapping) := []
  deriving DecidableEq, Repr

/-! PolicyMapper (engine/policy_mapper.py).  The mapper instance holds the
two loaded documents; its methods become functions over (AccessMatrix,
RoleMappings). -/

/-- PolicyMapper._get_default_access. -/
def _get_default_access (m : AccessMatrix) : AccessProfile :=
  { department := "Default"
    aws_roles := m.default_access.aws_roles
    azure_groups := m.default_access.azure_groups
    github_teams := m.default_access.github_teams
    google_groups := m.default_access.google_groups
    slack_channels := m.default_access.slack_channels
    description := some "Default employee access" }

/-- PolicyMapper._get_department_access: exact department-name lookup;
absent (or YAML-empty, see above) yields None. -/
def _get_department_access (m : AccessMatrix) (department : String) :
    Option AccessProfile :=
  match lookupStr department m.departments with
  | none => none
  | some c =>
      some { department := department
             aws_roles := c.aws_roles
             azure_groups := c.azure_groups
             github_teams := c.github_teams
             google_groups := c.google_groups
             slack_channels := c.slack_channels
             description :=
               some (c.description.getD (department ++ " department access")) }

/-- Builds the AccessProfile for a contractor / intern record of the
access matrix (the record itself defaults to all-empty when the
corresponding YAML key is missing, via dict.get(key, {})). -/
def contractProfileOf (dept : String) (c : AccessConfig) (descr : String) :
    AccessProfile :=
  { department := dept
    aws_roles := c.aws_roles
    azure_groups := c.azure_groups
    github_teams := c.github_teams
    google_groups := c.google_groups
    slack_channels := c.slack_channels
    description := some descr }

/-- PolicyMapper._get_contract_override: CONTRACTOR (exact, case-folded)
gives the contractor profile; a contract type containing INTERN or TEMP
gives the intern profile; anything else gives None. -/
def _get_contract_override (m : AccessMatrix) (contract_type : String) :
    Option AccessProfile :=
  if upperEq contract_type "CONTRACTOR" then
    some (contractProfileOf "Contractor" m.contractor_access
      "Contractor access profile")
  else if containsUpper "INTERN" contract_type || containsUpper "TEMP" contract_type then
    some (contractProfileOf "Intern" m.intern_access "Intern access profile")
  else
    none

/-- First title mapping whose pattern matches the title, in document order
(first match wins). -/
def findMatchingMapping (title : String) :
    List TitleMapping → Option TitleMapping
  | [] => none
  | mp :: rest =>
      if regexSearchCI mp.pattern title then some mp
      else findMatchingMapping title rest

/-- The additive profile built from a matched title mapping's
additional_* lists (policy_mapper.py lines 219 to 230).  The department
falls back through Python `or`, so an empty-string department_override also
falls back. -/
def additionalProfileOf (mp : TitleMapping) (title department : String) :
    AccessProfile :=
  { department := pyOrOptStr mp.department_override department
    aws_roles := mp.additional_aws_roles
    azure_groups := mp.additional_azure_groups
    github_teams := mp.additional_github_teams
    google_groups := mp.additional_google_groups
    slack_channels := mp.additional_slack_channels
    description := some ("Additional access for " ++ title) }

/-- The full-override profile named by a matched title mapping's
access_override key (policy_mapper.py lines 205 to 217). -/
def overrideProfileOf (mp : TitleMapping) (oc : AccessConfig)
    (title department : String) : AccessProfile :=
  { department := mp.department.getD department
    aws_roles := oc.aws_roles
    azure_groups := oc.azure_groups
    github_teams := oc.github_teams
    google_groups := oc.google_groups
    slack_channels := oc.slack_channels
    description := some ("Override profile for " ++ title) }

/-- PolicyMapper._get_title_access: first matching pattern wins; a truthy
access_override key that resolves in the access matrix yields the named
override profile, otherwise the mapping's additive profile; when no pattern
matches, custom_mappings is consulted by exact title. -/
def _get_title_access (m : AccessMatrix) (rm : RoleMappings)
    (title department : String) : Option AccessProfile :=
  match findMatchingMapping title rm.title_mappings with
  | some mp =>
      some (match mp.access_override with
        | some key =>
            if key ≠ "" then
              match lookupStr key m.profiles with
              | some oc => overrideProfileOf mp oc title department
              | none => additionalProfileOf mp title department
            else additionalProfileOf mp title department
        | none => additionalProfileOf mp title department)
  | none =>
      match lookupStr title rm.custom_mappings with
      | some c =>
          some { department := c.department.getD department
                 aws_roles := c.additional_aws_roles
                 azure_groups := c.additional_azure_groups
                 github_teams := c.additional_github_teams
                 google_groups := c.additional_google_groups
                 slack_channels := c.additional_slack_channels
                 description := some ("Custom profile for " ++ title) }
      | none => none

/-- Python list(set(a + b)) modeled as dedup of the concatenation (same
elements, one fixed order). -/
def pySetUnion (a b : List String) : List String :=
  (a ++ b).dedup

/-- PolicyMapper._merge_profiles: per-system set union, descriptive
metadata concatenated. -/
def _merge_profiles (base additional : AccessProfile) : AccessProfile :=
  { department := pyOrStr additional.department base.department
    title := pyOrOpt additional.title base.title
    aws_roles := pySetUnion base.aws_roles additional.aws_roles
    azure_groups := pySetUnion base.azure_groups additional.azure_groups
    github_teams := pySetUnion base.github_teams additional.github_teams
    google_groups := pySetUnion base.google_groups additional.google_groups
    slack_channels := pySetUnion base.slack_channels additional.slack_channels
    description :=
      some (optShow base.description ++ " + " ++ optShow additional.description) }

/-- PolicyMapper.get_access_profile after the default, department and
contract-type layers (the accumulator value of the local `profile` just
before the title layer runs). -/
def profile_after_contract (m : AccessMatrix) (department contract_type : String) :
    AccessProfile :=
  let profile := _get_default_access m
  let profile :=
    match _get_department_access m department with
    | some da => _merge_profiles profile da
    | none => profile
  match _get_contract_override m contract_type with
  | some co => co
  | none => profile

/-- The title layer of PolicyMapper.get_access_profile: when the title is
truthy and _get_title_access finds a profile, it is merged into the
accumulator (note: merged even when it is an override profile). -/
def apply_title_layer (m : AccessMatrix) (rm : RoleMappings)
    (profile : AccessProfile) (title : Option String) (department : String) :
    AccessProfile :=
  match title with
  | none => profile
  | some t =>
      if t = "" then profile
      else
        match _get_title_access m rm t department with
        | some ta => _merge_profiles profile ta
        | none => profile

/-- Python `title or "Employee"`. -/
def titleOrEmployee (title : Option String) : String :=
  pyOrOptStr title "Employee"

/-- PolicyMapper.get_access_profile: default layer, department merge,
contract-type full override, title layer, then final metadata. -/
def get_access_profile (m : AccessMatrix) (rm : RoleMappings)
    (department : String) (title : Option String) (contract_type : String) :
    AccessProfile :=
  let profile :=
    apply_title_layer m rm (profile_after_contract m department contract_type)
      title department
  { profile with
      department := department
      title := title
      description :=
        some ("Access profile for " ++ titleOrEmployee title ++ " in " ++ department) }

/-- PolicyMapper.get_access_profile_from_event. -/
def get_access_profile_from_event (m : AccessMatrix) (rm : RoleMappings)
    (e : HREvent) : AccessProfile :=
  get_access_profile m rm e.department (some e.title) e.contract_type

/-! BaseWorkflow._profile_to_entitlements (base_workflow.py lines 209 to
287): AWS roles map to (aws, role, name, assume); Azure groups, GitHub
teams, Google groups and Slack channels map to member-level group / team /
channel entitlements.  The employee_id parameter of the source is unused in
the produced objects and is dropped. -/
def _profile_to_entitlements (profile : AccessProfile) : List AccessEntitlement :=
  (profile.aws_roles.map fun r =>
    { system := "aws", resource_type := "role", resource_name := r
      permission_level := some "assume" })
  ++ (profile.azure_groups.map fun g =>
    { system := "azure", resource_type := "group", resource_name := g
      permission_level := some "member" })
  ++ (profile.github_teams.map fun t =>
    { system := "github", resource_type := "team", resource_name := t
      permission_level := some "member" })
  ++ (profile.google_groups.map fun g =>
    { system := "google", resource_type := "group", resource_name := g
      permission_level := some "member" })
  ++ (profile.slack_channels.map fun c =>
    { system := "slack", resource_type := "channel", resource_name := c
      permission_level := some "member" })

/-- Python set(xs) − ys for entitlements: the distinct elements of xs that
are not members of ys (membership via AccessEntitlement.__eq__). -/
def pyEntDiff (xs ys : List AccessEntitlement) : List AccessEntitlement :=
  xs.dedup.filter (fun x => decide (x ∉ ys))

/-- MoverWorkflow._calculate_entitlement_changes (mover.py lines 128 to
155): the set of old-profile entitlements is computed by the source and
never used; the delta is current − new and new − current by structural
set difference.  Returns (entitlements_to_remove, entitlements_to_add). -/
def _calculate_entitlement_changes (current_entitlements : List AccessEntitlement)
    (_old_profile new_profile : AccessProfile) :
    List AccessEntitlement × List AccessEntitlement :=
  let new_entitlements := (_profile_to_entitlements new_profile).dedup
  let current_set := current_entitlements.dedup
  (current_set.filter (fun x => decide (x ∉ new_entitlements)),
   new_entitlements.filter (fun x => decide (x ∉ current_set)))

/-- MoverWorkflow._get_removal_operation / LeaverWorkflow._get_revocation_operation
(identical tables): role maps to revoke_role; group, team and channel map to
remove_from_group; anything else defaults to revoke_role. -/
def _get_removal_operation (resource_type : String) : String :=
  if resource_type = "role" then "revoke_role"
  else if resource_type = "group" then "remove_from_group"
  else if resource_type = "team" then "remove_from_group"
  else if resource_type = "channel" then "remove_from_group"
  else "revoke_role"

/-- MoverWorkflow._get_addition_operation: role maps to grant_role; group,
team and channel map to add_to_group; anything else defaults to grant_role. -/
def _get_addition_operation (resource_type : String) : String :=
  if resource_type = "role" then "grant_role"
  else if resource_type = "group" then "add_to_group"
  else if resource_type = "team" then "add_to_group"
  else if resource_type = "channel" then "add_to_group"
  else "grant_role"

/-! StateManager (engine/state_manager.py).  The identities dict becomes an
insertion-ordered association list; every mutating call also calls
_save_state, which only performs file output and is not modeled. -/

/-- StateManager: the in-memory identity store. -/
structure StateManager where
  identities : List (String × UserIdentity) := []
  deriving DecidableEq, Repr

/-- StateManager.get_identity. -/
def get_identity (sm : StateManager) (employee_id : String) :
    Option UserIdentity :=
  lookupStr employee_id sm.identities

/-- Stores an identity under a key (CPython dict assignment). -/
def setIdentity (sm : StateManager) (k : String) (v : UserIdentity) :
    StateManager :=
  { sm with identities := insertAssoc k v sm.identities }

/-- StateManager._determine_status_from_event. -/
def _determine_status_from_event (e : HREvent) : UserStatus :=
  match e.event with
  | LifecycleEvent.TERMINATION => UserStatus.TERMINATED
  | LifecycleEvent.CONTRACTOR_OFFBOARDING => UserStatus.TERMINATED
  | LifecycleEvent.LEAVE_OF_ABSENCE => UserStatus.ON_LEAVE
  | LifecycleEvent.RETURN_FROM_LEAVE => UserStatus.ACTIVE
  | _ => UserStatus.ACTIVE

/-- StateManager.create_or_update_identity at clock tick `now`: an existing
record is mutated in place (name, email, department, title, updated_at,
last_hr_event, status; entitlements only when the argument is not None); a
missing record is created with `entitlements or []` and both timestamps at
`now`.  Returns the new store and the returned identity. -/
def create_or_update_identity (sm : StateManager) (hr_event : HREvent)
    (entitlements : Option (List AccessEntitlement)) (now : Nat) :
    StateManager × UserIdentity :=
  match get_identity sm hr_event.employee_id with
  | some existing =>
      let identity : UserIdentity :=
        { existing with
            name := hr_event.name
            email := hr_event.email
            department := hr_event.department
            title := hr_event.title
            updated_at := now
            last_hr_event := some hr_event
            status := _determine_status_from_event hr_event
            entitlements :=
              match entitlements with
              | some ents => ents
              | none => existing.entitlements }
      (setIdentity sm hr_event.employee_id identity, identity)
  | none =>
      let identity : UserIdentity :=
        { employee_id := hr_event.employee_id
          name := hr_event.name
          email := hr_event.email
          department := hr_event.department
          title := hr_event.title
          status := _determine_status_from_event hr_event
          entitlements := entitlements.getD []
          created_at := now
          updated_at := now
          last_hr_event := some hr_event }
      (setIdentity sm hr_event.employee_id identity, identity)

/-- StateManager.update_entitlements at clock tick `now`: replaces the
entitlement list verbatim and stamps updated_at; False when the employee is
unknown. -/
def update_entitlements (sm : StateManager) (employee_id : String)
    (entitlements : List AccessEntitlement) (now : Nat) :
    StateManager × Bool :=
  match get_identity sm employee_id with
  | none => (sm, false)
  | some identity =>
      (setIdentity sm employee_id
        { identity with entitlements := entitlements, updated_at := now },
       true)

/-- StateManager.add_entitlement at clock tick `now`: refuses when an
existing entitlement already matches on (system, resource_type,
resource_name) — permission_level is not compared — otherwise appends. -/
def add_entitlement (sm : StateManager) (employee_id : String)
    (entitlement : AccessEntitlement) (now : Nat) : StateManager × Bool :=
  match get_identity sm employee_id with
  | none => (sm, false)
  | some identity =>
      if identity.entitlements.any (fun existing =>
          existing.system == entitlement.system
          && existing.resource_type == entitlement.resource_type
          && existing.resource_name == entitlement.resource_name) then
        (sm, false)
      else
        (setIdentity sm employee_id
          { identity with
              entitlements := identity.entitlements ++ [entitlement]
              updated_at := now },
         true)

/-- The filter predicate of StateManager.remove_entitlement: an entitlement
is kept unless its system and resource_name both match. -/
def keepEntitlement (system resource_name : String)
    (ent : AccessEntitlement) : Bool :=
  !(ent.system == system && ent.resource_name == resource_name)

/-- StateManager.remove_entitlement at clock tick `now`: reassigns the
filtered entitlement list (which equals the original when nothing matched),
and only when the list shrank stamps updated_at and returns True. -/
def remove_entitlement (sm : StateManager) (employee_id : String)
    (system resource_name : String) (now : Nat) : StateManager × Bool :=
  match get_identity sm employee_id with
  | none => (sm, false)
  | some identity =>
      let original_count := identity.entitlements.length
      let kept := identity.entitlements.filter (keepEntitlement system resource_name)
      if kept.length < original_count then
        (setIdentity sm employee_id
          { identity with entitlements := kept, updated_at := now },
         true)
      else
        (setIdentity sm employee_id { identity with entitlements := kept },
         false)

/-- StateManager.deactivate_identity at clock tick `now`. -/
def deactivate_identity (sm : StateManager) (employee_id : String)
    (now : Nat) : StateManager × Bool :=
  match get_identity sm employee_id with
  | none => (sm, false)
  | some identity =>
      (setIdentity sm employee_id
        { identity with status := UserStatus.TERMINATED, updated_at := now },
       true)

/-! Workflow infrastructure (jml_engine/workflows/base_workflow.py). -/

/-- connectors ConnectorResult restricted to the fields read by
BaseWorkflow._execute_step (success and error; message and data are
recorded but never branch execution). -/
structure ConnectorResult where
  success : Bool
  error : Option String := none
  deriving DecidableEq, Repr

/-- The behavior of the registered connectors: the result a connector call
returns for a given (system, operation, resource) triple.  Connector calls
that raise are not modeled (the mock connectors of the repository return
results).  All quantified theorems hold for every behavior, which models
arbitrary per-step success and failure. -/
def ConnectorBehavior : Type :=
  String → String → String → ConnectorResult

/-- base_workflow.py WorkflowStep, with parameters reduced to the user_id
actually threaded through (the remaining parameters repeat the resource or
the full event and never branch execution). -/
structure WorkflowStep where
  system : String
  operation : String
  resource : String
  user_id : String := ""
  executed_at : Option Nat := none
  success : Bool := false
  error : Option String := none
  deriving DecidableEq, Repr

/-- The (system, operation, resource) signature of a step, stable across
execution. -/
def stepSig (s : WorkflowStep) : String × String × String :=
  (s.system, s.operation, s.resource)

/-- The five target systems every workflow is initialized with
(BaseWorkflow._initialize_connectors, JoinerWorkflow._create_user_accounts,
LeaverWorkflow._deactivate_user_accounts). -/
def knownSystems : List String :=
  ["aws", "azure", "github", "google", "slack"]

/-- The mutable per-instance state of a BaseWorkflow object: the step and
error accumulators (never reset between runs), the state manager, and the
clock. -/
structure Wf where
  steps : List WorkflowStep := []
  errors : List String := []
  sm : StateManager := {}
  clock : Nat := 0
  deriving DecidableEq, Repr

/-- One call of datetime.utcnow / datetime.now(timezone.utc): yields the
current tick and advances the clock. -/
def tick (wf : Wf) : Nat × Wf :=
  (wf.clock, { wf with clock := wf.clock + 1 })

/-- BaseWorkflow._execute_step on a freshly appended step: a missing
connector marks the step failed with a no-connector message; otherwise the
connector result is recorded on the step, and on failure
f-string-formatted text (None renders as "None") is appended to the
instance error list while the step error falls back to "Unknown error". -/
def runAppendStep (beh : ConnectorBehavior) (s : WorkflowStep) (wf : Wf) : Wf :=
  let (t, wf) := tick wf
  if knownSystems.contains s.system then
    let r := beh s.system s.operation s.resource
    if r.success then
      let s' := { s with executed_at := some t, success := true }
      { wf with steps := wf.steps ++ [s'] }
    else
      let s' := { s with
        executed_at := some t
        success := false
        error := some (r.error.getD "Unknown error") }
      let msg := s.system ++ "." ++ s.operation ++ ": " ++ optShow r.error
      { wf with steps := wf.steps ++ [s'], errors := wf.errors ++ [msg] }
  else
    let msg := "No connector available for system: " ++ s.system
    let s' := { s with executed_at := some t, success := false, error := some msg }
    { wf with steps := wf.steps ++ [s'], errors := wf.errors ++ [msg] }

/-- models.py WorkflowResult, with actions_taken holding the executed steps
(the source serializes each step with WorkflowStep.to_dict, a faithful
field-for-field rendering). -/
structure WorkflowResult where
  employee_id : String
  event_type : LifecycleEvent
  started_at : Nat
  completed_at : Option Nat := none
  success : Bool := true
  actions_taken : List WorkflowStep := []
  errors : List String := []
  deriving DecidableEq, Repr

/-- The TypeError text raised when JoinerWorkflow and MoverWorkflow call
self._log_audit_event without the user_email argument that
BaseWorkflow._log_audit_event (base_workflow.py lines 289 to 299) declares
as required: Python rejects the call before the method body runs.  (The
quotation marks Python puts around the parameter name are omitted.) -/
def auditTypeErrorMsg : String :=
  "_log_audit_event() missing 1 required positional argument: user_email"

/-- The joiner / mover audit call site (for example joiner.py lines 122 to
131): it passes employee_id, event_type, system, action, resource, success
and error but not user_email, so the call raises a TypeError instead of
logging.  LeaverWorkflow passes user_email and is unaffected. -/
def missingEmailAuditCall (wf : Wf) : Wf × Option String :=
  (wf, some auditTypeErrorMsg)

/-! JoinerWorkflow (workflows/joiner.py). -/

/-- JoinerWorkflow._create_user_accounts: one create_user step per target
system; after each step the audit call raises (missingEmailAuditCall), and
the exception propagates out of the loop. -/
def create_user_accounts_loop (beh : ConnectorBehavior) (e : HREvent) :
    List String → Wf → Wf × Option String
  | [], wf => (wf, none)
  | sys :: rest, wf =>
      let wf1 := runAppendStep beh
        { system := sys, operation := "create_user", resource := "user_account"
          user_id := e.employee_id } wf
      match missingEmailAuditCall wf1 with
      | (wf2, some exn) => (wf2, some exn)
      | (wf2, none) => create_user_accounts_loop beh e rest wf2

/-- One of the five per-system loops of
JoinerWorkflow._assign_access_entitlements: one step per resource name,
followed by the raising audit call. -/
def joiner_assign_loop (beh : ConnectorBehavior) (uid system operation : String) :
    List String → Wf → Wf × Option String
  | [], wf => (wf, none)
  | r :: rest, wf =>
      let wf1 := runAppendStep beh
        { system := system, operation := operation, resource := r, user_id := uid } wf
      match missingEmailAuditCall wf1 with
      | (wf2, some exn) => (wf2, some exn)
      | (wf2, none) => joiner_assign_loop beh uid system operation rest wf2

/-- JoinerWorkflow._assign_access_entitlements: AWS grant_role with the
employee id, then Azure / GitHub add_to_group with the employee id, then
Google / Slack add_to_group with the email. -/
def assign_access_entitlements (beh : ConnectorBehavior) (e : HREvent)
    (profile : AccessProfile) (wf : Wf) : Wf × Option String :=
  match joiner_assign_loop beh e.employee_id "aws" "grant_role" profile.aws_roles wf with
  | (wf, some exn) => (wf, some exn)
  | (wf, none) =>
  match joiner_assign_loop beh e.employee_id "azure" "add_to_group" profile.azure_groups wf with
  | (wf, some exn) => (wf, some exn)
  | (wf, none) =>
  match joiner_assign_loop beh e.employee_id "github" "add_to_group" profile.github_teams wf with
  | (wf, some exn) => (wf, some exn)
  | (wf, none) =>
  match joiner_assign_loop beh e.email "google" "add_to_group" profile.google_groups wf with
  | (wf, some exn) => (wf, some exn)
  | (wf, none) =>
  joiner_assign_loop beh e.email "slack" "add_to_group" profile.slack_channels wf

/-- JoinerWorkflow._execute_provisioning_steps: account creation, then
entitlement assignment. -/
def execute_provisioning_steps (beh : ConnectorBehavior) (e : HREvent)
    (profile : AccessProfile) (wf : Wf) : Wf × Option String :=
  match create_user_accounts_loop beh e knownSystems wf with
  | (wf, some exn) => (wf, some exn)
  | (wf, none) => assign_access_entitlements beh e profile wf

/-- BaseWorkflow._get_user_identity: return the stored identity, or create
one from the resolved profile's entitlements. -/
def get_user_identity (m : AccessMatrix) (rm : RoleMappings) (e : HREvent)
    (wf : Wf) : Wf × UserIdentity :=
  match get_identity wf.sm e.employee_id with
  | some identity => (wf, identity)
  | none =>
      let profile := get_access_profile_from_event m rm e
      let ents := _profile_to_entitlements profile
      let (now, wf) := tick wf
      let res := create_or_update_identity wf.sm e (some ents) now
      ({ wf with sm := res.1 }, res.2)

/-- JoinerWorkflow.execute: rejects non-NEW_STARTER events with an uncaught
ValueError; otherwise resolves the profile, ensures an identity, runs the
provisioning steps, persists the desired entitlements, and builds the
result — with the whole body inside a failure boundary that converts any
exception into a success=false result carrying the accumulated steps. -/
def joiner_execute (m : AccessMatrix) (rm : RoleMappings)
    (beh : ConnectorBehavior) (e : HREvent) (wf : Wf) :
    Except String (WorkflowResult × Wf) :=
  if e.event ≠ LifecycleEvent.NEW_STARTER then
    Except.error "Joiner workflow can only process NEW_STARTER events"
  else
    let (started, wf) := tick wf
    let profile := get_access_profile_from_event m rm e
    let wf := (get_user_identity m rm e wf).1
    match execute_provisioning_steps beh e profile wf with
    | (wf, some exn) =>
        let (completed, wf) := tick wf
        let wf := { wf with errors := wf.errors ++ [exn] }
        Except.ok
          ({ employee_id := e.employee_id, event_type := e.event
             started_at := started, completed_at := some completed
             success := false, actions_taken := wf.steps, errors := wf.errors },
           wf)
    | (wf, none) =>
        let ents := _profile_to_entitlements profile
        let (now, wf) := tick wf
        let (sm', _ok) := update_entitlements wf.sm e.employee_id ents now
        let wf := { wf with sm := sm' }
        let (completed, wf) := tick wf
        Except.ok
          ({ employee_id := e.employee_id, event_type := e.event
             started_at := started, completed_at := some completed
             success := wf.errors.isEmpty, actions_taken := wf.steps
             errors := wf.errors },
           wf)

/-! MoverWorkflow (workflows/mover.py). -/

/-- One iteration block per entitlement of
MoverWorkflow._execute_removal_steps / _execute_addition_steps: step,
execution, then the raising audit call (mover also omits user_email). -/
def mover_step_loop (beh : ConnectorBehavior) (uid : String)
    (opOf : String → String) :
    List AccessEntitlement → Wf → Wf × Option String
  | [], wf => (wf, none)
  | ent :: rest, wf =>
      let wf1 := runAppendStep beh
        { system := ent.system, operation := opOf ent.resource_type
          resource := ent.resource_name, user_id := uid } wf
      match missingEmailAuditCall wf1 with
      | (wf2, some exn) => (wf2, some exn)
      | (wf2, none) => mover_step_loop beh uid opOf rest wf2

/-- MoverWorkflow._get_old_access_profile: previous department and title
fall back to the current ones through Python `or`. -/
def _get_old_access_profile (m : AccessMatrix) (rm : RoleMappings)
    (e : HREvent) : AccessProfile :=
  get_access_profile m rm
    (pyOrOptStr e.previous_department e.department)
    (some (pyOrOptStr e.previous_title e.title))
    "PERMANENT"

/-- The in-place attribute mutation of mover.py lines 70 to 74: the
current_identity object fetched at the start is the object held by the
store, so assigning department, title, last_hr_event and updated_at on it
updates the stored record (a no-op on the store if the record vanished,
which the control flow rules out). -/
def mover_update_identity_fields (sm : StateManager) (e : HREvent)
    (now2 : Nat) : StateManager :=
  match get_identity sm e.employee_id with
  | some stored =>
      setIdentity sm e.employee_id
        { stored with
            department := e.department
            title := e.title
            last_hr_event := some e
            updated_at := now2 }
  | none => sm

/-- MoverWorkflow.execute: rejects other event kinds with an uncaught
ValueError; a missing identity raises inside the failure boundary, which
yields a success=false result with the accumulated steps and a
not-found error; otherwise the delta is computed and executed, the merged
entitlement set persisted, and the identity fields updated in place. -/
def mover_execute (m : AccessMatrix) (rm : RoleMappings)
    (beh : ConnectorBehavior) (e : HREvent) (wf : Wf) :
    Except String (WorkflowResult × Wf) :=
  if e.event ≠ LifecycleEvent.ROLE_CHANGE ∧
     e.event ≠ LifecycleEvent.DEPARTMENT_CHANGE then
    Except.error "Mover workflow can only process ROLE_CHANGE/DEPARTMENT_CHANGE events"
  else
    let (started, wf) := tick wf
    match get_identity wf.sm e.employee_id with
    | none =>
        let exn := "No identity found for employee " ++ e.employee_id
        let (completed, wf) := tick wf
        let wf := { wf with errors := wf.errors ++ [exn] }
        Except.ok
          ({ employee_id := e.employee_id, event_type := e.event
             started_at := started, completed_at := some completed
             success := false, actions_taken := wf.steps, errors := wf.errors },
           wf)
    | some current_identity =>
        let old_profile := _get_old_access_profile m rm e
        let new_profile := get_access_profile_from_event m rm e
        let changes :=
          _calculate_entitlement_changes current_identity.entitlements
            old_profile new_profile
        let to_remove := changes.1
        let to_add := changes.2
        let afterSteps :=
          match mover_step_loop beh e.employee_id _get_removal_operation to_remove wf with
          | (wf, some exn) => (wf, some exn)
          | (wf, none) =>
              mover_step_loop beh e.employee_id _get_addition_operation to_add wf
        match afterSteps with
        | (wf, some exn) =>
            let (completed, wf) := tick wf
            let wf := { wf with errors := wf.errors ++ [exn] }
            Except.ok
              ({ employee_id := e.employee_id, event_type := e.event
                 started_at := started, completed_at := some completed
                 success := false, actions_taken := wf.steps, errors := wf.errors },
               wf)
        | (wf, none) =>
            let updated_entitlements :=
              (current_identity.entitlements.filter
                (fun ent => decide (ent ∉ to_remove))) ++ to_add
            let (now, wf) := tick wf
            let upd :=
              update_entitlements wf.sm e.employee_id updated_entitlements now
            let wf := { wf with sm := upd.1 }
            let (now2, wf) := tick wf
            let wf := { wf with sm := mover_update_identity_fields wf.sm e now2 }
            let (completed, wf) := tick wf
            Except.ok
              ({ employee_id := e.employee_id, event_type := e.event
                 started_at := started, completed_at := some completed
                 success := wf.errors.isEmpty, actions_taken := wf.steps
                 errors := wf.errors },
               wf)

/-! LeaverWorkflow (jml_engine/workflows/leaver.py).  Its audit calls pass
user_email, so they log normally; the audit trail itself only appends
records to a file and does not affect workflow state. -/

/-- LeaverWorkflow._revoke_all_entitlements: one revocation step per held
entitlement; the audit call succeeds. -/
def leaver_revoke_loop (beh : ConnectorBehavior) (uid : String) :
    List AccessEntitlement → Wf → Wf
  | [], wf => wf
  | ent :: rest, wf =>
      let wf := runAppendStep beh
        { system := ent.system, operation := _get_removal_operation ent.resource_type
          resource := ent.resource_name, user_id := uid } wf
      leaver_revoke_loop beh uid rest wf

/-- LeaverWorkflow._deactivate_user_accounts: one delete_user step per
target system. -/
def leaver_delete_loop (beh : ConnectorBehavior) (uid : String) :
    List String → Wf → Wf
  | [], wf => wf
  | sys :: rest, wf =>
      let wf := runAppendStep beh
        { system := sys, operation := "delete_user", resource := "user_account"
          user_id := uid } wf
      leaver_delete_loop beh uid rest wf

/-- LeaverWorkflow.execute: rejects other event kinds with an uncaught
ValueError; a missing identity only logs a warning and the five delete_user
steps still run; revocation steps run when the identity holds entitlements;
the identity (when present) is marked TERMINATED regardless of step
failures. -/
def leaver_execute (beh : ConnectorBehavior) (e : HREvent) (wf : Wf) :
    Except String (WorkflowResult × Wf) :=
  if e.event ≠ LifecycleEvent.TERMINATION ∧
     e.event ≠ LifecycleEvent.CONTRACTOR_OFFBOARDING then
    Except.error "Leaver workflow can only process TERMINATION/CONTRACTOR_OFFBOARDING events"
  else
    let (started, wf) := tick wf
    let current_identity := get_identity wf.sm e.employee_id
    let wf :=
      match current_identity with
      | some identity =>
          if identity.entitlements.isEmpty then wf
          else leaver_revoke_loop beh e.employee_id identity.entitlements wf
      | none => wf
    let wf := leaver_delete_loop beh e.employee_id knownSystems wf
    let wf :=
      match current_identity with
      | some _ =>
          let (now, wf) := tick wf
          { wf with sm := (deactivate_identity wf.sm e.employee_id now).1 }
      | none => wf
    let (completed, wf) := tick wf
    Except.ok
      ({ employee_id := e.employee_id, event_type := e.event
         started_at := started, completed_at := some completed
         success := wf.errors.isEmpty, actions_taken := wf.steps
         errors := wf.errors },
       wf)

/-! Invariant predicates. -/

/-- Pairwise distinctness of the (system, resource_type, resource_name,
permission_level) tuples within one entitlement list. -/
abbrev EntitlementsUnique (l : List AccessEntitlement) : Prop :=
  (l.map AccessEntitlement.key).Nodup

/-- Every identity held by the store has pairwise-distinct entitlement
tuples. -/
abbrev StoreUnique (sm : StateManager) : Prop :=
  ∀ p ∈ sm.identities, EntitlementsUnique p.2.entitlements

/-! Concrete instances used by the closed theorems and witnesses. -/

/-- A connector behavior where every call succeeds (all connectors mocked
to succeed). -/
def behOk : ConnectorBehavior := fun _ _ _ => { success := true }

/-- A connector behavior where azure calls fail and everything else
succeeds. -/
def behAzureFails : ConnectorBehavior := fun s _ _ =>
  if s = "azure" then { success := false, error := some "Connection error" }
  else { success := true }

/-- Scenario A access matrix: default profile empty, Engineering grants
aws_roles = [EC2ReadOnly]. -/
def matrixA : AccessMatrix :=
  { departments := [("Engineering", { aws_roles := ["EC2ReadOnly"] })] }

/-- Scenario A NEW_STARTER event. -/
def eventA : HREvent :=
  { event := LifecycleEvent.NEW_STARTER, employee_id := "E001"
    name := "Alice Example", email := "alice@example.com"
    department := "Engineering", title := "Software Engineer" }

/-- Access matrix whose default layer grants BaseRole and which holds a
top-level override profile eng_override granting only OverrideRole. -/
def matrixC2 : AccessMatrix :=
  { default_access := { aws_roles := ["BaseRole"] }
    profiles := [("eng_override", { aws_roles := ["OverrideRole"] })] }

/-- Role mappings with a single title pattern naming the eng_override
profile as a full access_override. -/
def mappingsC2 : RoleMappings :=
  { title_mappings := [{ pattern := "engineer", access_override := some "eng_override" }] }

/-- A stored identity holding three entitlements. -/
def identThree : UserIdentity :=
  { employee_id := "E002", name := "Bob Builder", email := "bob@example.com"
    department := "Engineering", title := "Developer"
    entitlements := [
      { system := "aws", resource_type := "role", resource_name := "EC2ReadOnly"
        permission_level := some "assume" },
      { system := "github", resource_type := "team", resource_name := "devs"
        permission_level := some "member" },
      { system := "slack", resource_type := "channel", resource_name := "eng"
        permission_level := some "member" }] }

/-- TERMINATION event for the employee holding three entitlements. -/
def eventTerm : HREvent :=
  { event := LifecycleEvent.TERMINATION, employee_id := "E002"
    name := "Bob Builder", email := "bob@example.com"
    department := "Engineering", title := "Developer" }

/-- A store holding only identThree. -/
def smThree : StateManager := { identities := [("E002", identThree)] }

/-- A sample entitlement used by the state-store witnesses. -/
def entW : AccessEntitlement :=
  { system := "aws", resource_type := "role", resource_name := "EC2ReadOnly"
    permission_level := some "assume" }

/-- A ROLE_CHANGE event for the Scenario A employee. -/
def eventMove : HREvent :=
  { eventA with event := LifecycleEvent.ROLE_CHANGE }

/-- A Marketing profile granting only one Azure group, used to exercise the
Mover delta. -/
def profileNewW : AccessProfile :=
  { department := "Marketing", azure_groups := ["Marketing"] }

/-- The instance state left behind by one Scenario A joiner run (identity on
the error branch, which the run never takes at this input). -/
def joinerRunState (wf : Wf) : Wf :=
  match joiner_execute matrixA {} behOk eventA wf with
  | Except.ok (_, wf') => wf'
  | Except.error _ => wf

/-! Association-list lemmas shared by the state-store proofs. -/

theorem lookupStr_insertAssoc {β : Type} (k q : String) (v : β)
    (l : List (String × β)) :
    lookupStr q (insertAssoc k v l) =
      if k = q then some v else lookupStr q l := by
  induction l with
  | nil => simp [insertAssoc, lookupStr]
  | cons p rest ih =>
      obtain ⟨k', v'⟩ := p
      by_cases hk : k' = k
      · subst hk
        by_cases hq : k' = q
        · subst hq; simp [insertAssoc, lookupStr]
        · simp [insertAssoc, lookupStr, hq]
      · by_cases hq : k' = q
        · subst hq
          have hkq : ¬(k = k') := fun h => hk h.symm
          simp [insertAssoc, lookupStr, hk, hkq]
        · simp [insertAssoc, lookupStr, hk, hq, ih]

theorem insertAssoc_of_lookup {β : Type} (k : String) (v : β)
    (l : List (String × β)) (h : lookupStr k l = some v) :
    insertAssoc k v l = l := by
  induction l with
  | nil => simp [lookupStr] at h
  | cons p rest ih =>
      obtain ⟨k', v'⟩ := p
      by_cases hk : k' = k
      · subst hk
        simp only [lookupStr, if_true, eq_self_iff_true, Option.some.injEq] at h
        simp [insertAssoc, h]
      · simp only [lookupStr, if_neg hk] at h
        simp [insertAssoc, hk, ih h]

theorem mem_insertAssoc {β : Type} (k : String) (v : β)
    (l : List (String × β)) (p : String × β) (hp : p ∈ insertAssoc k v l) :
    p = (k, v) ∨ p ∈ l := by
  induction l with
  | nil => simpa [insertAssoc] using hp
  | cons q rest ih =>
      obtain ⟨k', v'⟩ := q
      by_cases hk : k' = k
      · subst hk
        simp only [insertAssoc, if_true, eq_self_iff_true, List.mem_cons] at hp
        rcases hp with h1 | h1
        · exact Or.inl h1
        · exact Or.inr (List.mem_cons_of_mem _ h1)
      · simp only [insertAssoc, if_neg hk, List.mem_cons] at hp
        rcases hp with h1 | h1
        · exact Or.inr (by simp [h1])
        · rcases ih h1 with h2 | h2
          · exact Or.inl h2
          · exact Or.inr (List.mem_cons_of_mem _ h2)

theorem lookupStr_mem {β : Type} (k : String) (v : β)
    (l : List (String × β)) (h : lookupStr k l = some v) : (k, v) ∈ l := by
  induction l with
  | nil => simp [lookupStr] at h
  | cons p rest ih =>
      obtain ⟨k', v'⟩ := p
      by_cases hk : k' = k
      · subst hk
        simp only [lookupStr, if_true, eq_self_iff_true, Option.some.injEq] at h
        simp [h]
      · simp only [lookupStr, if_neg hk] at h
        exact List.mem_cons_of_mem _ (ih h)

theorem get_setIdentity_self (sm : StateManager) (k : String)
    (v : UserIdentity) : get_identity (setIdentity sm k v) k = some v := by
  simp [get_identity, setIdentity, lookupStr_insertAssoc]

/-- C3: for every Mover run the delta is the pair of set differences
current − new and new − current, membership being decided by full
structural equality on (system, resource_type, resource_name,
permission_level); consequently no entitlement is both removed and added.
The first conjunct records that equality of two AccessEntitlement values is
exactly equality of their four-field tuples. -/
theorem mover_delta_set_differences
    (current : List AccessEntitlement) (old_profile new_profile : AccessProfile) :
    (∀ a b : AccessEntitlement, a = b ↔ a.key = b.key) ∧
    (∀ e : AccessEntitlement,
      e ∈ (_calculate_entitlement_changes current old_profile new_profile).1 ↔
        e ∈ current ∧ e ∉ _profile_to_entitlements new_profile) ∧
    (∀ e : AccessEntitlement,
      e ∈ (_calculate_entitlement_changes current old_profile new_profile).2 ↔
        e ∈ _profile_to_entitlements new_profile ∧ e ∉ current) ∧
    (∀ e : AccessEntitlement,
      ¬(e ∈ (_calculate_entitlement_changes current old_profile new_profile).1 ∧
        e ∈ (_calculate_entitlement_changes current old_profile new_profile).2)) := by
  refine ⟨?_, ?_, ?_, ?_⟩
  · intro a b
    cases a; cases b
    simp [AccessEntitlement.key, AccessEntitlement.mk.injEq, Prod.ext_iff]
  · intro e
    simp [_calculate_entitlement_changes, List.mem_filter, List.mem_dedup]
  · intro e
    simp [_calculate_entitlement_changes, List.mem_filter, List.mem_dedup]
  · intro e
    simp only [_calculate_entitlement_changes, List.mem_filter, List.mem_dedup,
      decide_eq_true_eq]
    tauto

/-- C3 witness: moving the three-entitlement holder onto the Marketing
profile schedules the aws EC2ReadOnly entitlement for removal. -/
theorem mover_delta_set_differences_witness :
    entW ∈ (_calculate_entitlement_changes identThree.entitlements
      profileNewW profileNewW).1 := by
  have h := mover_delta_set_differences identThree.entitlements
    profileNewW profileNewW
  exact (h.2.1 entW).mpr ⟨by decide, by decide⟩

/-- C10: remove_entitlement removes every entitlement of the identity whose
system and resource_name match, regardless of resource_type and
permission_level; it returns True exactly when at least one entitlement was
removed, and returns False leaving the identity (and the whole store,
updated_at included) unchanged when the employee is unknown or nothing
matches. -/
theorem remove_entitlement_semantics
    (sm sm' : StateManager) (employee_id system resource_name : String)
    (now : Nat) (b : Bool)
    (h : remove_entitlement sm employee_id system resource_name now = (sm', b)) :
    (get_identity sm employee_id = none → sm' = sm ∧ b = false) ∧
    (∀ id, get_identity sm employee_id = some id →
      (b = true ↔ ∃ ent ∈ id.entitlements,
          ent.system = system ∧ ent.resource_name = resource_name) ∧
      (b = false → sm' = sm) ∧
      (∃ id', get_identity sm' employee_id = some id' ∧
        (∀ ent, ent ∈ id'.entitlements ↔
          ent ∈ id.entitlements ∧
          ¬(ent.system = system ∧ ent.resource_name = resource_name)) ∧
        id'.updated_at = (if b then now else id.updated_at))) := by
  constructor
  · intro hn
    simp only [remove_entitlement, hn, Prod.mk.injEq] at h
    exact ⟨h.1.symm, h.2.symm⟩
  · intro id hid
    simp only [remove_entitlement, hid, Prod.mk.injEq] at h
    have hmatch : ∀ ent : AccessEntitlement,
        (¬ keepEntitlement system resource_name ent = true) ↔
        (ent.system = system ∧ ent.resource_name = resource_name) := by
      intro ent
      simp [keepEntitlement]
    by_cases hlt : (id.entitlements.filter
        (keepEntitlement system resource_name)).length < id.entitlements.length
    · rw [if_pos hlt] at h
      simp only [Prod.mk.injEq] at h
      obtain ⟨hsm, hb⟩ := h
      subst hsm
      have hex := List.length_filter_lt_length_iff_exists.mp hlt
      refine ⟨?_, ?_, ?_⟩
      · constructor
        · intro _
          obtain ⟨x, hx, hxk⟩ := hex
          exact ⟨x, hx, (hmatch x).mp hxk⟩
        · intro _
          exact hb.symm
      · intro hfalse
        rw [hfalse] at hb
        simp at hb
      · refine ⟨_, get_setIdentity_self _ _ _, ?_, ?_⟩
        · intro ent
          simp only [List.mem_filter]
          constructor
          · intro ⟨hm, hk⟩
            refine ⟨hm, ?_⟩
            intro hc
            exact absurd hk (by simpa using (hmatch ent).mpr hc)
          · intro ⟨hm, hc⟩
            refine ⟨hm, ?_⟩
            by_contra hk
            exact hc ((hmatch ent).mp hk)
        · rw [← hb]
          simp
    · rw [if_neg hlt] at h
      simp only [Prod.mk.injEq] at h
      obtain ⟨hsm, hb⟩ := h
      subst hsm
      have hall : ∀ ent ∈ id.entitlements,
          keepEntitlement system resource_name ent = true := by
        intro ent hm
        by_contra hk
        exact hlt (List.length_filter_lt_length_iff_exists.mpr ⟨ent, hm, hk⟩)
      have hkept : id.entitlements.filter (keepEntitlement system resource_name)
          = id.entitlements := List.filter_eq_self.mpr hall
      have hideq : ({ id with entitlements :=
          id.entitlements.filter (keepEntitlement system resource_name) }
            : UserIdentity) = id := by
        rw [hkept]
      have hsm_eq : setIdentity sm employee_id
          { id with entitlements :=
            id.entitlements.filter (keepEntitlement system resource_name) } = sm := by
        rw [hideq]
        show { sm with identities := insertAssoc employee_id id sm.identities } = sm
        rw [insertAssoc_of_lookup _ _ _ hid]
      refine ⟨?_, fun _ => hsm_eq, ?_⟩
      · constructor
        · intro ht
          rw [ht] at hb
          simp at hb
        · intro ⟨ent, hm, hc⟩
          exact absurd ((hmatch ent).mpr hc) (by simp [hall ent hm])
      · refine ⟨id, ?_, ?_, ?_⟩
        · rw [hsm_eq]
          exact hid
        · intro ent
          constructor
          · intro hm
            exact ⟨hm, fun hc => absurd ((hmatch ent).mpr hc) (by simp [hall ent hm])⟩
          · exact fun hm => hm.1
        · rw [← hb]
          simp

/-- C10 witness: removing (aws, EC2ReadOnly) from the stored identity that
holds it returns True. -/
theorem remove_entitlement_semantics_witness :
    (remove_entitlement smThree "E002" "aws" "EC2ReadOnly" 9).2 = true := by
  have h := remove_entitlement_semantics smThree
    (remove_entitlement smThree "E002" "aws" "EC2ReadOnly" 9).1
    "E002" "aws" "EC2ReadOnly" 9
    (remove_entitlement smThree "E002" "aws" "EC2ReadOnly" 9).2 rfl
  exact ((h.2 identThree (by decide)).1).mpr ⟨entW, by decide, by decide, by decide⟩

/-- C7: create_or_update_identity creates a record when none exists, with
status derived from the event kind (TERMINATION and CONTRACTOR_OFFBOARDING
give TERMINATED, LEAVE_OF_ABSENCE gives ON_LEAVE, RETURN_FROM_LEAVE gives
ACTIVE, every other kind gives ACTIVE); when a record exists it mutates
name, email, department, title, status and updated_at in place (plus
last_hr_event), and the existing entitlement list is left unchanged
whenever the entitlements argument is not supplied. -/
theorem create_or_update_identity_upsert_semantics
    (sm sm' : StateManager) (e : HREvent)
    (ents : Option (List AccessEntitlement)) (now : Nat) (id : UserIdentity)
    (h : create_or_update_identity sm e ents now = (sm', id)) :
    get_identity sm' e.employee_id = some id ∧
    id.status = (match e.event with
      | LifecycleEvent.TERMINATION => UserStatus.TERMINATED
      | LifecycleEvent.CONTRACTOR_OFFBOARDING => UserStatus.TERMINATED
      | LifecycleEvent.LEAVE_OF_ABSENCE => UserStatus.ON_LEAVE
      | LifecycleEvent.RETURN_FROM_LEAVE => UserStatus.ACTIVE
      | _ => UserStatus.ACTIVE) ∧
    id.name = e.name ∧ id.email = e.email ∧
    id.department = e.department ∧ id.title = e.title ∧
    id.updated_at = now ∧ id.last_hr_event = some e ∧
    (get_identity sm e.employee_id = none →
      id.employee_id = e.employee_id ∧ id.created_at = now ∧
      id.entitlements = ents.getD []) ∧
    (∀ old, get_identity sm e.employee_id = some old →
      id.employee_id = old.employee_id ∧ id.created_at = old.created_at ∧
      (ents = none → id.entitlements = old.entitlements) ∧
      (∀ l, ents = some l → id.entitlements = l)) := by
  have hstatus : ∀ ev : HREvent, _determine_status_from_event ev =
      (match ev.event with
        | LifecycleEvent.TERMINATION => UserStatus.TERMINATED
        | LifecycleEvent.CONTRACTOR_OFFBOARDING => UserStatus.TERMINATED
        | LifecycleEvent.LEAVE_OF_ABSENCE => UserStatus.ON_LEAVE
        | LifecycleEvent.RETURN_FROM_LEAVE => UserStatus.ACTIVE
        | _ => UserStatus.ACTIVE) := by
    intro ev
    cases hev : ev.event <;> simp [_determine_status_from_event, hev]
  cases hlook : get_identity sm e.employee_id with
  | some old =>
      simp only [create_or_update_identity, hlook, Prod.mk.injEq] at h
      obtain ⟨hsm, hident⟩ := h
      subst hsm
      subst hident
      refine ⟨get_setIdentity_self _ _ _, hstatus e, rfl, rfl, rfl, rfl, rfl, rfl,
        ?_, ?_⟩
      · intro hn
        simp at hn
      · intro old' hold'
        cases hold'
        refine ⟨rfl, rfl, ?_, ?_⟩
        · intro hn
          subst hn
          rfl
        · intro l hl
          subst hl
          rfl
  | none =>
      simp only [create_or_update_identity, hlook, Prod.mk.injEq] at h
      obtain ⟨hsm, hident⟩ := h
      subst hsm
      subst hident
      refine ⟨get_setIdentity_self _ _ _, hstatus e, rfl, rfl, rfl, rfl, rfl, rfl,
        ?_, ?_⟩
      · intro _
        refine ⟨rfl, rfl, ?_⟩
        cases ents <;> rfl
      · intro old' hold'
        simp at hold'

/-- C7 witness: upserting a TERMINATION event into the empty store creates
a record with status TERMINATED. -/
theorem create_or_update_identity_upsert_semantics_witness :
    ((create_or_update_identity {} eventTerm none 5).2).status =
      UserStatus.TERMINATED := by
  have h := create_or_update_identity_upsert_semantics {}
    (create_or_update_identity {} eventTerm none 5).1 eventTerm none 5
    (create_or_update_identity {} eventTerm none 5).2 rfl
  exact h.2.1

/-! Uniqueness-invariant lemmas for the C8 analysis. -/

theorem EntitlementsUnique_filter (l : List AccessEntitlement)
    (p : AccessEntitlement → Bool) (h : EntitlementsUnique l) :
    EntitlementsUnique (l.filter p) :=
  List.Nodup.sublist (List.Sublist.map _ (List.filter_sublist l)) h

theorem StoreUnique_setIdentity (sm : StateManager) (k : String)
    (v : UserIdentity) (h : StoreUnique sm)
    (hv : EntitlementsUnique v.entitlements) :
    StoreUnique (setIdentity sm k v) := by
  intro p hp
  rcases mem_insertAssoc k v sm.identities p hp with h1 | h1
  · subst h1
    exact hv
  · exact h p h1

theorem StoreUnique_lookup (sm : StateManager) (k : String)
    (id : UserIdentity) (h : StoreUnique sm)
    (hid : get_identity sm k = some id) :
    EntitlementsUnique id.entitlements :=
  h (k, id) (lookupStr_mem k id sm.identities hid)

/-- C8 counterexample: update_entitlements stores the caller-supplied list
verbatim, so supplying the same entitlement twice leaves the identity with
two records for one (system, resource_type, resource_name,
permission_level) tuple — the claimed preservation of uniqueness by every
state-store operation fails. -/
theorem update_entitlements_duplicates_cex :
    get_identity (update_entitlements smThree "E002" [entW, entW] 7).1 "E002" =
      some { identThree with entitlements := [entW, entW], updated_at := 7 } ∧
    ¬ EntitlementsUnique [entW, entW] := by
  exact ⟨by decide, by decide⟩

/-- C8 amended: within one identity the entitlement tuples stay pairwise
distinct under every state-store operation, provided the entitlement lists
supplied to create_or_update_identity and update_entitlements are
themselves duplicate-free (the two operations store the supplied list
verbatim); add_entitlement, remove_entitlement and deactivate_identity
preserve uniqueness unconditionally. -/
theorem store_uniqueness_preserved_for_nodup_inputs
    (sm : StateManager) (h : StoreUnique sm) :
    (∀ (e : HREvent) (ents : Option (List AccessEntitlement)) (now : Nat),
      (∀ l, ents = some l → EntitlementsUnique l) →
      StoreUnique (create_or_update_identity sm e ents now).1) ∧
    (∀ (employee_id : String) (ents : List AccessEntitlement) (now : Nat),
      EntitlementsUnique ents →
      StoreUnique (update_entitlements sm employee_id ents now).1) ∧
    (∀ (employee_id : String) (ent : AccessEntitlement) (now : Nat),
      StoreUnique (add_entitlement sm employee_id ent now).1) ∧
    (∀ (employee_id system resource_name : String) (now : Nat),
      StoreUnique (remove_entitlement sm employee_id system resource_name now).1) ∧
    (∀ (employee_id : String) (now : Nat),
      StoreUnique (deactivate_identity sm employee_id now).1) := by
  refine ⟨?_, ?_, ?_, ?_, ?_⟩
  · intro e ents now hents
    cases hlook : get_identity sm e.employee_id with
    | some old =>
        simp only [create_or_update_identity, hlook]
        apply StoreUnique_setIdentity _ _ _ h
        cases hentsCase : ents with
        | some l => simpa using hents l hentsCase
        | none => simpa using StoreUnique_lookup sm e.employee_id old h hlook
    | none =>
        simp only [create_or_update_identity, hlook]
        apply StoreUnique_setIdentity _ _ _ h
        cases hentsCase : ents with
        | some l => simpa using hents l hentsCase
        | none => simp [EntitlementsUnique]
  · intro employee_id ents now hents
    cases hlook : get_identity sm employee_id with
    | some old =>
        simp only [update_entitlements, hlook]
        exact StoreUnique_setIdentity _ _ _ h hents
    | none =>
        simpa only [update_entitlements, hlook] using h
  · intro employee_id ent now
    cases hlook : get_identity sm employee_id with
    | some old =>
        simp only [add_entitlement, hlook]
        by_cases hany : old.entitlements.any (fun existing =>
            existing.system == ent.system
            && existing.resource_type == ent.resource_type
            && existing.resource_name == ent.resource_name) = true
        · simpa [hany] using h
        · rw [if_neg hany]
          apply StoreUnique_setIdentity _ _ _ h
          have hold : EntitlementsUnique old.entitlements :=
            StoreUnique_lookup sm employee_id old h hlook
          have hnotin : ent.key ∉ old.entitlements.map AccessEntitlement.key := by
            intro hmem
            obtain ⟨x, hx, hkey⟩ := List.mem_map.mp hmem
            apply hany
            rw [List.any_eq_true]
            refine ⟨x, hx, ?_⟩
            simp only [AccessEntitlement.key, Prod.mk.injEq] at hkey
            simp [hkey.1, hkey.2.1, hkey.2.2.1]
          show ((old.entitlements ++ [ent]).map AccessEntitlement.key).Nodup
          rw [List.map_append]
          simp [List.nodup_append, hold, hnotin]
    | none =>
        simpa only [add_entitlement, hlook] using h
  · intro employee_id system resource_name now
    cases hlook : get_identity sm employee_id with
    | some old =>
        have hold : EntitlementsUnique old.entitlements :=
          StoreUnique_lookup sm employee_id old h hlook
        simp only [remove_entitlement, hlook]
        by_cases hlt : (old.entitlements.filter
            (keepEntitlement system resource_name)).length < old.entitlements.length
        · rw [if_pos hlt]
          exact StoreUnique_setIdentity _ _ _ h
            (EntitlementsUnique_filter _ _ hold)
        · rw [if_neg hlt]
          exact StoreUnique_setIdentity _ _ _ h
            (EntitlementsUnique_filter _ _ hold)
    | none =>
        simpa only [remove_entitlement, hlook] using h
  · intro employee_id now
    cases hlook : get_identity sm employee_id with
    | some old =>
        simp only [deactivate_identity, hlook]
        exact StoreUnique_setIdentity _ _ _ h
          (StoreUnique_lookup sm employee_id old h hlook)
    | none =>
        simpa only [deactivate_identity, hlook] using h

/-- C8 witness: the amended preservation applied to the sample store, for
add_entitlement on an already-covered (system, resource_type,
resource_name) triple. -/
theorem store_uniqueness_preserved_witness :
    StoreUnique (add_entitlement smThree "E002" entW 3).1 :=
  (store_uniqueness_preserved_for_nodup_inputs smThree (by decide)).2.2.1
    "E002" entW 3

/-- C2 counterexample: with the default layer granting BaseRole and the
title Software Engineer matching the pattern engineer whose access_override
names the profile eng_override = [OverrideRole], the resolved profile still
contains BaseRole — the title override is merged into the accumulator, not
substituted for it, so the returned per-system lists do not equal the
override profile's lists. -/
theorem title_override_not_replacing_cex :
    "BaseRole" ∈ (get_access_profile matrixC2 mappingsC2 "Engineering"
      (some "Software Engineer") "PERMANENT").aws_roles ∧
    lookupStr "eng_override" matrixC2.profiles =
      some { aws_roles := ["OverrideRole"] } ∧
    "BaseRole" ∉ ["OverrideRole"] := by
  exact ⟨by decide, by decide, by decide⟩

/-- C2 amended: when the title matches a title_mappings pattern that names
an access_override profile present in the access matrix, the returned
profile's per-system lists are the set union of the accumulator (default,
department and contract layers) with the override profile's lists — the
title layer merges the override profile rather than replacing the
accumulator. -/
theorem title_override_merged_into_accumulator
    (m : AccessMatrix) (rm : RoleMappings) (department t contract_type : String)
    (mp : TitleMapping) (key : String) (oc : AccessConfig)
    (ht : ¬ t = "")
    (hfind : findMatchingMapping t rm.title_mappings = some mp)
    (hko : mp.access_override = some key) (hk : ¬ key = "")
    (hoc : lookupStr key m.profiles = some oc) :
    (∀ x, x ∈ (get_access_profile m rm department (some t) contract_type).aws_roles ↔
      x ∈ (profile_after_contract m department contract_type).aws_roles ∨
      x ∈ oc.aws_roles) ∧
    (∀ x, x ∈ (get_access_profile m rm department (some t) contract_type).azure_groups ↔
      x ∈ (profile_after_contract m department contract_type).azure_groups ∨
      x ∈ oc.azure_groups) ∧
    (∀ x, x ∈ (get_access_profile m rm department (some t) contract_type).github_teams ↔
      x ∈ (profile_after_contract m department contract_type).github_teams ∨
      x ∈ oc.github_teams) ∧
    (∀ x, x ∈ (get_access_profile m rm department (some t) contract_type).google_groups ↔
      x ∈ (profile_after_contract m department contract_type).google_groups ∨
      x ∈ oc.google_groups) ∧
    (∀ x, x ∈ (get_access_profile m rm department (some t) contract_type).slack_channels ↔
      x ∈ (profile_after_contract m department contract_type).slack_channels ∨
      x ∈ oc.slack_channels) := by
  have hta : _get_title_access m rm t department =
      some (overrideProfileOf mp oc t department) := by
    simp [_get_title_access, hfind, hko, hk, hoc]
  have hres : get_access_profile m rm department (some t) contract_type =
      { _merge_profiles (profile_after_contract m department contract_type)
          (overrideProfileOf mp oc t department) with
        department := department
        title := some t
        description := some ("Access profile for " ++ titleOrEmployee (some t)
          ++ " in " ++ department) } := by
    simp [get_access_profile, apply_title_layer, ht, hta]
  rw [hres]
  refine ⟨?_, ?_, ?_, ?_, ?_⟩ <;>
    intro x <;>
    simp [_merge_profiles, pySetUnion, overrideProfileOf, List.mem_dedup,
      List.mem_append]

/-- C2 witness: at the concrete override configuration the resolved profile
contains the override role alongside the accumulator's role. -/
theorem title_override_merged_witness :
    "OverrideRole" ∈ (get_access_profile matrixC2 mappingsC2 "Engineering"
      (some "Software Engineer") "PERMANENT").aws_roles := by
  have h := title_override_merged_into_accumulator matrixC2 mappingsC2
    "Engineering" "Software Engineer" "PERMANENT"
    { pattern := "engineer", access_override := some "eng_override" }
    "eng_override" { aws_roles := ["OverrideRole"] }
    (by decide) (by decide) (by decide) (by decide) (by decide)
  exact (h.1 "OverrideRole").mpr (Or.inr (by decide))

/-! Step-execution projection lemmas shared by the workflow proofs. -/

theorem runAppendStep_sm (beh : ConnectorBehavior) (s : WorkflowStep) (wf : Wf) :
    (runAppendStep beh s wf).sm = wf.sm := by
  simp only [runAppendStep, tick]
  split
  · split <;> rfl
  · rfl

theorem runAppendStep_steps_sig (beh : ConnectorBehavior) (s : WorkflowStep)
    (wf : Wf) :
    ((runAppendStep beh s wf).steps).map stepSig =
      wf.steps.map stepSig ++ [stepSig s] := by
  simp only [runAppendStep, tick]
  split
  · split <;> simp [stepSig]
  · simp [stepSig]

theorem runAppendStep_errors_extends (beh : ConnectorBehavior)
    (s : WorkflowStep) (wf : Wf) :
    ∃ d, (runAppendStep beh s wf).errors = wf.errors ++ d := by
  simp only [runAppendStep, tick]
  split
  · split
    · exact ⟨[], by simp⟩
    · exact ⟨_, rfl⟩
  · exact ⟨_, rfl⟩

theorem leaver_revoke_loop_sm (beh : ConnectorBehavior) (uid : String)
    (ents : List AccessEntitlement) : ∀ wf : Wf,
    (leaver_revoke_loop beh uid ents wf).sm = wf.sm := by
  induction ents with
  | nil => intro wf; rfl
  | cons ent rest ih =>
      intro wf
      simp only [leaver_revoke_loop]
      rw [ih, runAppendStep_sm]

theorem leaver_revoke_loop_steps_sig (beh : ConnectorBehavior) (uid : String)
    (ents : List AccessEntitlement) : ∀ wf : Wf,
    ((leaver_revoke_loop beh uid ents wf).steps).map stepSig =
      wf.steps.map stepSig ++ ents.map (fun ent =>
        (ent.system, _get_removal_operation ent.resource_type, ent.resource_name)) := by
  induction ents with
  | nil => intro wf; simp [leaver_revoke_loop]
  | cons ent rest ih =>
      intro wf
      simp only [leaver_revoke_loop]
      rw [ih, runAppendStep_steps_sig]
      simp [stepSig]

theorem leaver_delete_loop_sm (beh : ConnectorBehavior) (uid : String)
    (systems : List String) : ∀ wf : Wf,
    (leaver_delete_loop beh uid systems wf).sm = wf.sm := by
  induction systems with
  | nil => intro wf; rfl
  | cons sys rest ih =>
      intro wf
      simp only [leaver_delete_loop]
      rw [ih, runAppendStep_sm]

theorem leaver_delete_loop_steps_sig (beh : ConnectorBehavior) (uid : String)
    (systems : List String) : ∀ wf : Wf,
    ((leaver_delete_loop beh uid systems wf).steps).map stepSig =
      wf.steps.map stepSig ++ systems.map (fun sys =>
        (sys, "delete_user", "user_account")) := by
  induction systems with
  | nil => intro wf; simp [leaver_delete_loop]
  | cons sys rest ih =>
      intro wf
      simp only [leaver_delete_loop]
      rw [ih, runAppendStep_steps_sig]
      simp [stepSig]

theorem deactivate_status (sm : StateManager) (k : String) (now : Nat)
    (id : UserIdentity) (hid : get_identity sm k = some id) :
    ∃ id', get_identity (deactivate_identity sm k now).1 k = some id' ∧
      id'.status = UserStatus.TERMINATED := by
  simp only [deactivate_identity, hid]
  exact ⟨_, get_setIdentity_self _ _ _, rfl⟩

/-- C5: a TERMINATION or CONTRACTOR_OFFBOARDING run on a fresh instance
emits one revocation step per held entitlement followed by exactly the five
delete_user steps (one per system aws / azure / github / google / slack),
for any connector behavior — so failures of individual steps do not change
the emitted steps — and the stored identity is marked TERMINATED; with no
stored identity the five delete_user steps are still emitted. -/
theorem leaver_emits_revocations_then_deletions
    (beh : ConnectorBehavior) (e : HREvent) (wf : Wf)
    (r : WorkflowResult) (wf' : Wf)
    (hev : e.event = LifecycleEvent.TERMINATION ∨
      e.event = LifecycleEvent.CONTRACTOR_OFFBOARDING)
    (hsteps : wf.steps = [])
    (h : leaver_execute beh e wf = Except.ok (r, wf')) :
    (∀ id, get_identity wf.sm e.employee_id = some id →
      r.actions_taken.map stepSig =
        id.entitlements.map (fun ent =>
          (ent.system, _get_removal_operation ent.resource_type, ent.resource_name))
        ++ knownSystems.map (fun sys => (sys, "delete_user", "user_account")) ∧
      r.actions_taken.length = id.entitlements.length + 5 ∧
      (∃ id', get_identity wf'.sm e.employee_id = some id' ∧
        id'.status = UserStatus.TERMINATED)) ∧
    (get_identity wf.sm e.employee_id = none →
      r.actions_taken.map stepSig =
        knownSystems.map (fun sys => (sys, "delete_user", "user_account"))) := by
  have hcond : ¬(e.event ≠ LifecycleEvent.TERMINATION ∧
      e.event ≠ LifecycleEvent.CONTRACTOR_OFFBOARDING) := by
    rcases hev with h1 | h1 <;> simp [h1]
  rw [leaver_execute, if_neg hcond] at h
  simp only [tick] at h
  cases hid0 : get_identity wf.sm e.employee_id with
  | some id =>
      simp only [hid0] at h
      by_cases hemp : id.entitlements.isEmpty
      · simp only [hemp, if_true, Except.ok.injEq, Prod.mk.injEq] at h
        obtain ⟨hr, hw⟩ := h
        subst hr
        subst hw
        have hnil : id.entitlements = [] := by
          simpa using hemp
        constructor
        · intro id1 hid1
          cases hid1
          refine ⟨?_, ?_, ?_⟩
          · rw [leaver_delete_loop_steps_sig]
            simp [hsteps, hnil]
          · have hmap := leaver_delete_loop_steps_sig beh e.employee_id
              knownSystems (Wf.mk wf.steps wf.errors wf.sm (wf.clock + 1))
            have hlen := congrArg List.length hmap
            simp only [List.length_map, List.length_append] at hlen
            rw [hlen]
            simp [hsteps, hnil, knownSystems]
          · exact deactivate_status _ e.employee_id _ id
              (by rw [leaver_delete_loop_sm]; exact hid0)
        · intro hid1
          cases hid1
      · simp only [hemp, if_false, Bool.false_eq_true,
          Except.ok.injEq, Prod.mk.injEq] at h
        obtain ⟨hr, hw⟩ := h
        subst hr
        subst hw
        constructor
        · intro id1 hid1
          cases hid1
          refine ⟨?_, ?_, ?_⟩
          · rw [leaver_delete_loop_steps_sig, leaver_revoke_loop_steps_sig]
            simp [hsteps]
          · have hmap := leaver_delete_loop_steps_sig beh e.employee_id
              knownSystems (leaver_revoke_loop beh e.employee_id id.entitlements
                (Wf.mk wf.steps wf.errors wf.sm (wf.clock + 1)))
            rw [leaver_revoke_loop_steps_sig] at hmap
            have hlen := congrArg List.length hmap
            simp only [List.length_map, List.length_append] at hlen
            rw [hlen]
            simp [hsteps, knownSystems]
          · exact deactivate_status _ e.employee_id _ id
              (by rw [leaver_delete_loop_sm, leaver_revoke_loop_sm]; exact hid0)
        · intro hid1
          cases hid1
  | none =>
      simp only [hid0, Except.ok.injEq, Prod.mk.injEq] at h
      obtain ⟨hr, hw⟩ := h
      subst hr
      subst hw
      constructor
      · intro id1 hid1
        cases hid1
      · intro _
        rw [leaver_delete_loop_steps_sig]
        simp [hsteps]

/-- C5 witness: for an identity holding three entitlements and a connector
behavior where azure fails, the run emits 3 + 5 = 8 steps. -/
theorem leaver_emits_revocations_witness :
    ∃ r wf', leaver_execute behAzureFails eventTerm { sm := smThree } =
      Except.ok (r, wf') ∧ r.actions_taken.length = 3 + 5 := by
  have hok : (leaver_execute behAzureFails eventTerm
      { sm := smThree }).toOption.isSome = true := by decide
  cases hrun : leaver_execute behAzureFails eventTerm { sm := smThree } with
  | error msg =>
      rw [hrun] at hok
      simp [Except.toOption] at hok
  | ok p =>
      obtain ⟨r, wf'⟩ := p
      refine ⟨r, wf', rfl, ?_⟩
      have h := leaver_emits_revocations_then_deletions behAzureFails eventTerm
        { sm := smThree } r wf' (Or.inl rfl) rfl hrun
      simpa using (h.1 identThree (by decide)).2.1

/-! Joiner run-shape lemmas. -/

theorem runAppendStep_steps_extends (beh : ConnectorBehavior)
    (s : WorkflowStep) (wf : Wf) :
    ∃ s', (runAppendStep beh s wf).steps = wf.steps ++ [s'] := by
  simp only [runAppendStep, tick]
  split
  · split
    · exact ⟨_, rfl⟩
    · exact ⟨_, rfl⟩
  · exact ⟨_, rfl⟩

theorem get_user_identity_steps_errors (m : AccessMatrix) (rm : RoleMappings)
    (e : HREvent) (wf : Wf) :
    (get_user_identity m rm e wf).1.steps = wf.steps ∧
    (get_user_identity m rm e wf).1.errors = wf.errors := by
  simp only [get_user_identity, tick]
  cases hlook : get_identity wf.sm e.employee_id <;> simp [hlook]

/-- Every joiner run appends exactly one step (the aws create_user step)
and at least the audit TypeError to the instance accumulators, aborts
through the failure boundary, and reports accumulated steps and errors with
success = false. -/
theorem joiner_run_shape (m : AccessMatrix) (rm : RoleMappings)
    (beh : ConnectorBehavior) (e : HREvent) (wf : Wf)
    (hev : e.event = LifecycleEvent.NEW_STARTER) :
    ∃ (r : WorkflowResult) (wf' : Wf) (s : WorkflowStep) (errs : List String),
      joiner_execute m rm beh e wf = Except.ok (r, wf') ∧
      wf'.steps = wf.steps ++ [s] ∧
      wf'.errors = wf.errors ++ errs ∧ errs ≠ [] ∧
      r.actions_taken = wf.steps ++ [s] ∧
      r.errors = wf.errors ++ errs ∧
      r.success = false := by
  have hif : ¬(e.event ≠ LifecycleEvent.NEW_STARTER) := by simp [hev]
  obtain ⟨hBsteps, hBerrors⟩ := get_user_identity_steps_errors m rm e
    (Wf.mk wf.steps wf.errors wf.sm (wf.clock + 1))
  set step0 : WorkflowStep :=
    { system := "aws", operation := "create_user", resource := "user_account"
      user_id := e.employee_id } with hstep0
  set wfB : Wf :=
    (get_user_identity m rm e (Wf.mk wf.steps wf.errors wf.sm (wf.clock + 1))).1
    with hwfB
  obtain ⟨s', hs'⟩ := runAppendStep_steps_extends beh step0 wfB
  obtain ⟨d, hd⟩ := runAppendStep_errors_extends beh step0 wfB
  refine ⟨⟨e.employee_id, e.event, wf.clock,
      some (runAppendStep beh step0 wfB).clock, false,
      (runAppendStep beh step0 wfB).steps,
      (runAppendStep beh step0 wfB).errors ++ [auditTypeErrorMsg]⟩,
    ⟨(runAppendStep beh step0 wfB).steps,
      (runAppendStep beh step0 wfB).errors ++ [auditTypeErrorMsg],
      (runAppendStep beh step0 wfB).sm,
      (runAppendStep beh step0 wfB).clock + 1⟩,
    s', d ++ [auditTypeErrorMsg], ?_, ?_, ?_, by simp, ?_, ?_, rfl⟩
  · rw [joiner_execute, if_neg hif]
    rfl
  · show (runAppendStep beh step0 wfB).steps = wf.steps ++ [s']
    rw [hs', hwfB, hBsteps]
  · show (runAppendStep beh step0 wfB).errors ++ [auditTypeErrorMsg] =
      wf.errors ++ (d ++ [auditTypeErrorMsg])
    rw [hd, hwfB, hBerrors, List.append_assoc]
  · show (runAppendStep beh step0 wfB).steps = wf.steps ++ [s']
    rw [hs', hwfB, hBsteps]
  · show (runAppendStep beh step0 wfB).errors ++ [auditTypeErrorMsg] =
      wf.errors ++ (d ++ [auditTypeErrorMsg])
    rw [hd, hwfB, hBerrors, List.append_assoc]

theorem isEmpty_append_ne_nil {α : Type} (l d : List α) (h : l ≠ []) :
    (l ++ d).isEmpty = false := by
  cases l with
  | nil => exact absurd rfl h
  | cons a t => simp

theorem leaver_revoke_loop_acc (beh : ConnectorBehavior) (uid : String)
    (ents : List AccessEntitlement) : ∀ wf : Wf,
    ∃ δs δe, (leaver_revoke_loop beh uid ents wf).steps = wf.steps ++ δs ∧
      δs.length = ents.length ∧
      (leaver_revoke_loop beh uid ents wf).errors = wf.errors ++ δe := by
  induction ents with
  | nil =>
      intro wf
      exact ⟨[], [], by simp [leaver_revoke_loop], rfl,
        by simp [leaver_revoke_loop]⟩
  | cons ent rest ih =>
      intro wf
      obtain ⟨s1, hs1⟩ := runAppendStep_steps_extends beh
        { system := ent.system
          operation := _get_removal_operation ent.resource_type
          resource := ent.resource_name, user_id := uid } wf
      obtain ⟨d1, hd1⟩ := runAppendStep_errors_extends beh
        { system := ent.system
          operation := _get_removal_operation ent.resource_type
          resource := ent.resource_name, user_id := uid } wf
      obtain ⟨δs, δe, hδs, hlen, hδe⟩ := ih (runAppendStep beh
        { system := ent.system
          operation := _get_removal_operation ent.resource_type
          resource := ent.resource_name, user_id := uid } wf)
      refine ⟨s1 :: δs, d1 ++ δe, ?_, ?_, ?_⟩
      · simp only [leaver_revoke_loop]
        rw [hδs, hs1]
        simp
      · simp [hlen]
      · simp only [leaver_revoke_loop]
        rw [hδe, hd1, List.append_assoc]

theorem leaver_delete_loop_acc (beh : ConnectorBehavior) (uid : String)
    (systems : List String) : ∀ wf : Wf,
    ∃ δs δe, (leaver_delete_loop beh uid systems wf).steps = wf.steps ++ δs ∧
      δs.length = systems.length ∧
      (leaver_delete_loop beh uid systems wf).errors = wf.errors ++ δe := by
  induction systems with
  | nil =>
      intro wf
      exact ⟨[], [], by simp [leaver_delete_loop], rfl,
        by simp [leaver_delete_loop]⟩
  | cons sys rest ih =>
      intro wf
      obtain ⟨s1, hs1⟩ := runAppendStep_steps_extends beh
        { system := sys, operation := "delete_user"
          resource := "user_account", user_id := uid } wf
      obtain ⟨d1, hd1⟩ := runAppendStep_errors_extends beh
        { system := sys, operation := "delete_user"
          resource := "user_account", user_id := uid } wf
      obtain ⟨δs, δe, hδs, hlen, hδe⟩ := ih (runAppendStep beh
        { system := sys, operation := "delete_user"
          resource := "user_account", user_id := uid } wf)
      refine ⟨s1 :: δs, d1 ++ δe, ?_, ?_, ?_⟩
      · simp only [leaver_delete_loop]
        rw [hδs, hs1]
        simp
      · simp [hlen]
      · simp only [leaver_delete_loop]
        rw [hδe, hd1, List.append_assoc]

/-- Every leaver run appends a nonempty batch of steps (the five
delete_user steps always run) and some batch of errors to the instance
accumulators, reports exactly the accumulated lists, and reports
success = false whenever the instance already held an error. -/
theorem leaver_run_shape (beh : ConnectorBehavior) (e : HREvent) (wf : Wf)
    (hev : e.event = LifecycleEvent.TERMINATION ∨
      e.event = LifecycleEvent.CONTRACTOR_OFFBOARDING) :
    ∃ r wf' δs δe,
      leaver_execute beh e wf = Except.ok (r, wf') ∧
      δs ≠ [] ∧
      wf'.steps = wf.steps ++ δs ∧
      wf'.errors = wf.errors ++ δe ∧
      r.actions_taken = wf'.steps ∧
      r.errors = wf'.errors ∧
      (wf.errors ≠ [] → r.success = false) := by
  have hcond : ¬(e.event ≠ LifecycleEvent.TERMINATION ∧
      e.event ≠ LifecycleEvent.CONTRACTOR_OFFBOARDING) := by
    rcases hev with h1 | h1 <;> simp [h1]
  rw [leaver_execute, if_neg hcond]
  simp only [tick]
  cases hid0 : get_identity wf.sm e.employee_id with
  | some id =>
      by_cases hemp : id.entitlements.isEmpty
      · simp only [hemp, if_true]
        obtain ⟨δs, δe, hδs, hlen, hδe⟩ := leaver_delete_loop_acc beh
          e.employee_id knownSystems
          (Wf.mk wf.steps wf.errors wf.sm (wf.clock + 1))
        refine ⟨_, _, δs, δe, rfl, ?_, hδs, hδe, rfl, rfl, ?_⟩
        · intro hc
          rw [hc] at hlen
          simp [knownSystems] at hlen
        · intro hne
          change (leaver_delete_loop beh e.employee_id knownSystems
            (Wf.mk wf.steps wf.errors wf.sm (wf.clock + 1))).errors.isEmpty
            = false
          rw [hδe]
          exact isEmpty_append_ne_nil _ _ hne
      · simp only [hemp, if_false, Bool.false_eq_true]
        obtain ⟨δr, δre, hδr, _, hδre⟩ := leaver_revoke_loop_acc beh
          e.employee_id id.entitlements
          (Wf.mk wf.steps wf.errors wf.sm (wf.clock + 1))
        obtain ⟨δd, δde, hδd, hlend, hδde⟩ := leaver_delete_loop_acc beh
          e.employee_id knownSystems
          (leaver_revoke_loop beh e.employee_id id.entitlements
            (Wf.mk wf.steps wf.errors wf.sm (wf.clock + 1)))
        refine ⟨_, _, δr ++ δd, δre ++ δde, rfl, ?_, ?_, ?_, rfl, rfl, ?_⟩
        · intro hc
          have hd0 : δd = [] := (List.append_eq_nil.mp hc).2
          rw [hd0] at hlend
          simp [knownSystems] at hlend
        · change (leaver_delete_loop beh e.employee_id knownSystems
            (leaver_revoke_loop beh e.employee_id id.entitlements
              (Wf.mk wf.steps wf.errors wf.sm (wf.clock + 1)))).steps =
            wf.steps ++ (δr ++ δd)
          rw [hδd, hδr]
          simp
        · change (leaver_delete_loop beh e.employee_id knownSystems
            (leaver_revoke_loop beh e.employee_id id.entitlements
              (Wf.mk wf.steps wf.errors wf.sm (wf.clock + 1)))).errors =
            wf.errors ++ (δre ++ δde)
          rw [hδde, hδre]
          simp
        · intro hne
          change (leaver_delete_loop beh e.employee_id knownSystems
            (leaver_revoke_loop beh e.employee_id id.entitlements
              (Wf.mk wf.steps wf.errors wf.sm (wf.clock + 1)))).errors.isEmpty
            = false
          rw [hδde, hδre, List.append_assoc]
          exact isEmpty_append_ne_nil _ _ hne
  | none =>
      obtain ⟨δs, δe, hδs, hlen, hδe⟩ := leaver_delete_loop_acc beh
        e.employee_id knownSystems
        (Wf.mk wf.steps wf.errors wf.sm (wf.clock + 1))
      refine ⟨_, _, δs, δe, rfl, ?_, hδs, hδe, rfl, rfl, ?_⟩
      · intro hc
        rw [hc] at hlen
        simp [knownSystems] at hlen
      · intro hne
        change (leaver_delete_loop beh e.employee_id knownSystems
          (Wf.mk wf.steps wf.errors wf.sm (wf.clock + 1))).errors.isEmpty
          = false
        rw [hδe]
        exact isEmpty_append_ne_nil _ _ hne

/-- Every mover run appends some batch of steps and errors to the instance
accumulators (possibly none on an empty delta), reports exactly the
accumulated lists, and reports success = false whenever the instance
already held an error. -/
theorem mover_run_shape (m : AccessMatrix) (rm : RoleMappings)
    (beh : ConnectorBehavior) (e : HREvent) (wf : Wf)
    (hev : e.event = LifecycleEvent.ROLE_CHANGE ∨
      e.event = LifecycleEvent.DEPARTMENT_CHANGE) :
    ∃ r wf' δs δe,
      mover_execute m rm beh e wf = Except.ok (r, wf') ∧
      wf'.steps = wf.steps ++ δs ∧
      wf'.errors = wf.errors ++ δe ∧
      r.actions_taken = wf'.steps ∧
      r.errors = wf'.errors ∧
      (wf.errors ≠ [] → r.success = false) := by
  have hcond : ¬(e.event ≠ LifecycleEvent.ROLE_CHANGE ∧
      e.event ≠ LifecycleEvent.DEPARTMENT_CHANGE) := by
    rcases hev with h1 | h1 <;> simp [h1]
  rw [mover_execute, if_neg hcond]
  simp only [tick]
  cases hid0 : get_identity wf.sm e.employee_id with
  | none =>
      refine ⟨_, _, [], ["No identity found for employee " ++ e.employee_id],
        rfl, by simp, rfl, rfl, rfl, fun _ => rfl⟩
  | some id =>
      dsimp only
      cases hTR : (_calculate_entitlement_changes id.entitlements
          (_get_old_access_profile m rm e)
          (get_access_profile_from_event m rm e)).1 with
      | cons ent rest =>
          obtain ⟨s1, hs1⟩ := runAppendStep_steps_extends beh
            { system := ent.system
              operation := _get_removal_operation ent.resource_type
              resource := ent.resource_name, user_id := e.employee_id }
            (Wf.mk wf.steps wf.errors wf.sm (wf.clock + 1))
          obtain ⟨d1, hd1⟩ := runAppendStep_errors_extends beh
            { system := ent.system
              operation := _get_removal_operation ent.resource_type
              resource := ent.resource_name, user_id := e.employee_id }
            (Wf.mk wf.steps wf.errors wf.sm (wf.clock + 1))
          refine ⟨_, _, [s1], d1 ++ [auditTypeErrorMsg], rfl, hs1, ?_, rfl,
            rfl, fun _ => rfl⟩
          change (runAppendStep beh
            { system := ent.system
              operation := _get_removal_operation ent.resource_type
              resource := ent.resource_name, user_id := e.employee_id }
            (Wf.mk wf.steps wf.errors wf.sm (wf.clock + 1))).errors
            ++ [auditTypeErrorMsg] = wf.errors ++ (d1 ++ [auditTypeErrorMsg])
          rw [hd1]
          simp
      | nil =>
          cases hTA : (_calculate_entitlement_changes id.entitlements
              (_get_old_access_profile m rm e)
              (get_access_profile_from_event m rm e)).2 with
          | cons ent rest =>
              obtain ⟨s1, hs1⟩ := runAppendStep_steps_extends beh
                { system := ent.system
                  operation := _get_addition_operation ent.resource_type
                  resource := ent.resource_name, user_id := e.employee_id }
                (Wf.mk wf.steps wf.errors wf.sm (wf.clock + 1))
              obtain ⟨d1, hd1⟩ := runAppendStep_errors_extends beh
                { system := ent.system
                  operation := _get_addition_operation ent.resource_type
                  resource := ent.resource_name, user_id := e.employee_id }
                (Wf.mk wf.steps wf.errors wf.sm (wf.clock + 1))
              refine ⟨_, _, [s1], d1 ++ [auditTypeErrorMsg], rfl, hs1, ?_,
                rfl, rfl, fun _ => rfl⟩
              change (runAppendStep beh
                { system := ent.system
                  operation := _get_addition_operation ent.resource_type
                  resource := ent.resource_name, user_id := e.employee_id }
                (Wf.mk wf.steps wf.errors wf.sm (wf.clock + 1))).errors
                ++ [auditTypeErrorMsg] = wf.errors ++ (d1 ++ [auditTypeErrorMsg])
              rw [hd1]
              simp
          | nil =>
              refine ⟨_, _, [], [], rfl, by simp, by simp, rfl, rfl, ?_⟩
              intro hne
              change wf.errors.isEmpty = false
              cases hwe : wf.errors with
              | nil => exact absurd hwe hne
              | cons a t => simp

/-- C9: a workflow instance never resets its step and error accumulators
between runs, for each of the three variants: on a second execute call with
valid events, the second result's actions_taken contains all steps of the
first run in addition to the second run's steps, its errors list contains
the first run's errors, and its success flag is false whenever the first
run recorded any error (each variant computes success over the whole
instance error list; the joiner and mover failure boundary reports
success=false outright).  For the joiner and leaver the second run always
contributes new steps; a mover run with an empty delta contributes none. -/
theorem workflow_accumulators_never_reset (m : AccessMatrix)
    (rm : RoleMappings) (beh : ConnectorBehavior) (wf : Wf) :
    (∀ e1 e2 : HREvent,
      e1.event = LifecycleEvent.NEW_STARTER →
      e2.event = LifecycleEvent.NEW_STARTER →
      ∃ r1 wf1 r2 wf2,
        joiner_execute m rm beh e1 wf = Except.ok (r1, wf1) ∧
        joiner_execute m rm beh e2 wf1 = Except.ok (r2, wf2) ∧
        (∃ newSteps, newSteps ≠ [] ∧
          r2.actions_taken = r1.actions_taken ++ newSteps) ∧
        (∃ newErrs, r2.errors = r1.errors ++ newErrs) ∧
        (r1.errors ≠ [] → r2.success = false)) ∧
    (∀ e1 e2 : HREvent,
      (e1.event = LifecycleEvent.ROLE_CHANGE ∨
        e1.event = LifecycleEvent.DEPARTMENT_CHANGE) →
      (e2.event = LifecycleEvent.ROLE_CHANGE ∨
        e2.event = LifecycleEvent.DEPARTMENT_CHANGE) →
      ∃ r1 wf1 r2 wf2,
        mover_execute m rm beh e1 wf = Except.ok (r1, wf1) ∧
        mover_execute m rm beh e2 wf1 = Except.ok (r2, wf2) ∧
        (∃ newSteps, r2.actions_taken = r1.actions_taken ++ newSteps) ∧
        (∃ newErrs, r2.errors = r1.errors ++ newErrs) ∧
        (r1.errors ≠ [] → r2.success = false)) ∧
    (∀ e1 e2 : HREvent,
      (e1.event = LifecycleEvent.TERMINATION ∨
        e1.event = LifecycleEvent.CONTRACTOR_OFFBOARDING) →
      (e2.event = LifecycleEvent.TERMINATION ∨
        e2.event = LifecycleEvent.CONTRACTOR_OFFBOARDING) →
      ∃ r1 wf1 r2 wf2,
        leaver_execute beh e1 wf = Except.ok (r1, wf1) ∧
        leaver_execute beh e2 wf1 = Except.ok (r2, wf2) ∧
        (∃ newSteps, newSteps ≠ [] ∧
          r2.actions_taken = r1.actions_taken ++ newSteps) ∧
        (∃ newErrs, r2.errors = r1.errors ++ newErrs) ∧
        (r1.errors ≠ [] → r2.success = false)) := by
  refine ⟨?_, ?_, ?_⟩
  · intro e1 e2 h1 h2
    obtain ⟨r1, wf1, s1, errs1, hrun1, hw1s, hw1e, _, hr1a, hr1e, _⟩ :=
      joiner_run_shape m rm beh e1 wf h1
    obtain ⟨r2, wf2, s2, errs2, hrun2, _, _, _, hr2a, hr2e, hr2s⟩ :=
      joiner_run_shape m rm beh e2 wf1 h2
    refine ⟨r1, wf1, r2, wf2, hrun1, hrun2, ⟨[s2], by simp, ?_⟩,
      ⟨errs2, ?_⟩, fun _ => hr2s⟩
    · rw [hr2a, hw1s, hr1a, List.append_assoc]
    · rw [hr2e, hw1e, hr1e, List.append_assoc]
  · intro e1 e2 h1 h2
    obtain ⟨r1, wf1, δs1, δe1, hrun1, hw1s, hw1e, hr1a, hr1e, _⟩ :=
      mover_run_shape m rm beh e1 wf h1
    obtain ⟨r2, wf2, δs2, δe2, hrun2, hw2s, hw2e, hr2a, hr2e, hsc2⟩ :=
      mover_run_shape m rm beh e2 wf1 h2
    refine ⟨r1, wf1, r2, wf2, hrun1, hrun2, ⟨δs2, ?_⟩, ⟨δe2, ?_⟩, ?_⟩
    · rw [hr2a, hw2s, hr1a]
    · rw [hr2e, hw2e, hr1e]
    · intro hne
      apply hsc2
      rw [hr1e] at hne
      exact hne
  · intro e1 e2 h1 h2
    obtain ⟨r1, wf1, δs1, δe1, hrun1, _, hw1s, hw1e, hr1a, hr1e, _⟩ :=
      leaver_run_shape beh e1 wf h1
    obtain ⟨r2, wf2, δs2, δe2, hrun2, hne2, hw2s, hw2e, hr2a, hr2e, hsc2⟩ :=
      leaver_run_shape beh e2 wf1 h2
    refine ⟨r1, wf1, r2, wf2, hrun1, hrun2, ⟨δs2, hne2, ?_⟩, ⟨δe2, ?_⟩, ?_⟩
    · rw [hr2a, hw2s, hr1a]
    · rw [hr2e, hw2e, hr1e]
    · intro hne
      apply hsc2
      rw [hr1e] at hne
      exact hne

/-- C9 witness: two runs of each variant on concrete instances — the
Scenario A joiner, the ROLE_CHANGE mover against the empty store, and the
TERMINATION leaver against the three-entitlement store. -/
theorem workflow_accumulators_never_reset_witness :
    (∃ r1 wf1 r2 wf2,
      joiner_execute matrixA {} behOk eventA {} = Except.ok (r1, wf1) ∧
      joiner_execute matrixA {} behOk eventA wf1 = Except.ok (r2, wf2) ∧
      (∃ newSteps, newSteps ≠ [] ∧
        r2.actions_taken = r1.actions_taken ++ newSteps) ∧
      (∃ newErrs, r2.errors = r1.errors ++ newErrs) ∧
      (r1.errors ≠ [] → r2.success = false)) ∧
    (∃ r1 wf1 r2 wf2,
      mover_execute matrixA {} behOk eventMove {} = Except.ok (r1, wf1) ∧
      mover_execute matrixA {} behOk eventMove wf1 = Except.ok (r2, wf2) ∧
      (∃ newSteps, r2.actions_taken = r1.actions_taken ++ newSteps) ∧
      (∃ newErrs, r2.errors = r1.errors ++ newErrs) ∧
      (r1.errors ≠ [] → r2.success = false)) ∧
    (∃ r1 wf1 r2 wf2,
      leaver_execute behOk eventTerm { sm := smThree } = Except.ok (r1, wf1) ∧
      leaver_execute behOk eventTerm wf1 = Except.ok (r2, wf2) ∧
      (∃ newSteps, newSteps ≠ [] ∧
        r2.actions_taken = r1.actions_taken ++ newSteps) ∧
      (∃ newErrs, r2.errors = r1.errors ++ newErrs) ∧
      (r1.errors ≠ [] → r2.success = false)) := by
  refine ⟨(workflow_accumulators_never_reset matrixA {} behOk {}).1
      eventA eventA rfl rfl,
    (workflow_accumulators_never_reset matrixA {} behOk {}).2.1
      eventMove eventMove (Or.inl rfl) (Or.inl rfl),
    (workflow_accumulators_never_reset matrixA {} behOk
        { sm := smThree }).2.2
      eventTerm eventTerm (Or.inl rfl) (Or.inl rfl)⟩

/-- C4: a Mover run for an employee with no stored identity returns a
result (no exception reaches the caller) with success = false, an empty
actions_taken list, and an error string saying the identity was not found. -/
theorem mover_unknown_identity_returns_failure (m : AccessMatrix)
    (rm : RoleMappings) (beh : ConnectorBehavior) (e : HREvent) (wf : Wf)
    (hev : e.event = LifecycleEvent.ROLE_CHANGE ∨
      e.event = LifecycleEvent.DEPARTMENT_CHANGE)
    (hsteps : wf.steps = [])
    (hid : get_identity wf.sm e.employee_id = none) :
    ∃ r wf', mover_execute m rm beh e wf = Except.ok (r, wf') ∧
      r.success = false ∧ r.actions_taken = [] ∧
      ("No identity found for employee " ++ e.employee_id) ∈ r.errors := by
  have hcond : ¬(e.event ≠ LifecycleEvent.ROLE_CHANGE ∧
      e.event ≠ LifecycleEvent.DEPARTMENT_CHANGE) := by
    rcases hev with h | h <;> simp [h]
  rw [mover_execute, if_neg hcond]
  simp only [tick, hid]
  exact ⟨_, _, rfl, rfl, hsteps, by simp⟩

/-- C4 witness: a ROLE_CHANGE event against the empty store. -/
theorem mover_unknown_identity_witness :
    ∃ r wf', mover_execute matrixA {} behOk eventMove {} = Except.ok (r, wf') ∧
      r.success = false ∧ r.actions_taken = [] ∧
      ("No identity found for employee " ++ eventMove.employee_id) ∈ r.errors :=
  mover_unknown_identity_returns_failure matrixA {} behOk eventMove {}
    (Or.inl rfl) rfl (by decide)

/-- C1: at Scenario A (default profile empty, Engineering grants
EC2ReadOnly, all connectors succeeding) the joiner run does NOT produce the
six intended actions: its first audit call raises the user_email TypeError,
so the returned result holds exactly one step (the aws create_user step)
and success = false with the TypeError as its only error. -/
theorem scenarioA_joiner_aborts_after_first_create_step :
    (joiner_execute matrixA {} behOk eventA {}).toOption.map (fun p =>
      (p.1.actions_taken.length, p.1.success, p.1.errors,
       p.1.actions_taken.map stepSig)) =
    some (1, false, [auditTypeErrorMsg],
      [("aws", "create_user", "user_account")]) := by rfl

/-- C6: running the Scenario A joiner twice on the same event yields
exactly one identity record in the store after each run (the second run
does not duplicate it), but the record's updated_at is unchanged by the
second run — not strictly greater — because the TypeError in the audit call
aborts the run before update_entitlements executes. -/
theorem scenarioA_double_joiner_updated_at_stalls :
    (joiner_execute matrixA {} behOk eventA {}).toOption.isSome = true ∧
    (joiner_execute matrixA {} behOk eventA (joinerRunState {})).toOption.isSome
      = true ∧
    (joinerRunState {}).sm.identities.length = 1 ∧
    (joinerRunState (joinerRunState {})).sm.identities.length = 1 ∧
    (get_identity (joinerRunState (joinerRunState {})).sm
        "E001").map UserIdentity.updated_at =
      (get_identity (joinerRunState {}).sm "E001").map UserIdentity.updated_at
    := by decide

end JML
